import Mathlib

/-!
Verification of the Second Spectrum event deserializer of kloppy
(`kloppy/infra/serializers/event/secondspectrum/`): a shallow embedding of
the insight event parser, the JSON metadata parser and the format detector,
together with proofs about the behaviour claimed by the specification.

Modelling conventions:
* Python floats are modelled exactly as rationals (`ℚ`).
* `datetime` / `timedelta` values are modelled by `PyTime`: microsecond
  counts (datetime: microseconds since the Unix epoch, in UTC once aware).
* fallible Python code is modelled with `Except PyError`; the error
  constructors name the Python exception class that would be raised.
* Python `str` is modelled by `String`; only ASCII-relevant behaviour of
  `str.upper` is modelled.
-/

namespace Kloppy

/-- Decidable equality for `Except` results, used to evaluate the embedded
functions inside proofs. -/
instance {ε α : Type} [DecidableEq ε] [DecidableEq α] :
    DecidableEq (Except ε α) := fun a b =>
  match a, b with
  | .ok x, .ok y =>
    if h : x = y then .isTrue (by rw [h]) else .isFalse (by simp [h])
  | .error x, .error y =>
    if h : x = y then .isTrue (by rw [h]) else .isFalse (by simp [h])
  | .ok _, .error _ => .isFalse (by simp)
  | .error _, .ok _ => .isFalse (by simp)

/-- Python exception classes that the embedded code can raise. -/
inductive PyError where
  | deserialization (msg : String)
  | notImpl (msg : String)
  | attrError
  | nameError
  | keyError
  | typeError
  | valueError
  | zeroDivision
deriving DecidableEq, Repr

/-- A Python `datetime` (`dt`, microseconds since the Unix epoch, UTC) or
`timedelta` (`td`, microseconds). Both classes store exact integer
microsecond counts. -/
inductive PyTime where
  | dt (us : Int)
  | td (us : Int)
deriving DecidableEq, Repr

/-- Python truthiness of a `datetime`/`timedelta` value: `datetime` objects
are always truthy, a `timedelta` is falsy exactly when it is zero. -/
def PyTime.truthy : PyTime → Bool
  | .dt _ => true
  | .td us => us != 0

/-- Python truthiness of an optional time value (`None` is falsy). -/
def optTruthy : Option PyTime → Bool
  | none => false
  | some t => t.truthy

/-- Subtraction `a - b` where `a` is a `datetime` (microseconds) and `b` is a
`datetime` or `timedelta`, following Python semantics:
`datetime - datetime = timedelta` and `datetime - timedelta = datetime`. -/
def subDtFrom (a : Int) : PyTime → PyTime
  | .dt b => .td (a - b)
  | .td b => .dt (a - b)

/-- Python `max(timedelta(0), x)`: clamps a nonnegative `timedelta`; comparing
a `timedelta` with a `datetime` raises `TypeError`. -/
def maxTd0 : PyTime → Except PyError PyTime
  | .td us => .ok (.td (max 0 us))
  | .dt _ => .error .typeError

/-- A 2D pitch location. -/
structure Point where
  x : ℚ
  y : ℚ
deriving DecidableEq, Repr

/-- Ball state of an event (`kloppy.domain.BallState`). -/
inductive BallState where
  | alive
  | dead
deriving DecidableEq, Repr

/-- A player of a team roster (the fields relevant to the event parser). -/
structure Player where
  player_id : String
  name : String
deriving DecidableEq, Repr

/-- A team with its roster (the fields relevant to the event parser). -/
structure Team where
  team_id : String
  name : String
  players : List Player
deriving DecidableEq, Repr

/-- Modelled from the spec: `kloppy.domain.Team.get_player_by_id` (domain
model, outside `src/`) looks a player up in the team roster by identifier,
yielding `none` when no player matches. -/
def get_player_by_id (team : Team) (pid : String) : Option Player :=
  team.players.find? (fun p => p.player_id == pid)

/-- Roster lookup applied to a possibly-`None` player id (no player ever has
identifier `None`, so a `None` argument yields `none`). -/
def getPlayerByOptId (team : Team) : Option String → Option Player
  | some pid => get_player_by_id team pid
  | none => none

/-- A match period; `start_timestamp` / `end_timestamp` start out as
whatever the metadata parser produced and are overwritten in place by the
event loop (`none` models Python `None`). -/
structure Period where
  id : Int
  start_timestamp : Option PyTime
  end_timestamp : Option PyTime
deriving DecidableEq, Repr

/-- The raw intermediate event record
(`kloppy...statsperform.parsers.base.OptaEvent`, fields as populated by
`InsightParser.extract_events`). Qualifier values may be Python `None`
(inner `Option`); the qualifier mapping keeps insertion order with
last-wins lookup, like a Python dict built by comprehension. -/
structure OptaEvent where
  id : String
  event_id : Int
  type_id : Int
  period_id : Int
  time_min : Int
  time_sec : Int
  x : ℚ
  y : ℚ
  timestamp : Int
  last_modified : Int
  contestant_id : String
  player_id : Option String
  outcome : Int
  qualifiers : List (Int × Option String)
deriving DecidableEq, Repr

/-- Python `qualifiers.get(k)`: the stored value of the last entry for key
`k`, flattened (`None` both when the key is absent and when the stored
value is `None`, exactly as `.get` behaves downstream). -/
def qGet (q : List (Int × Option String)) (k : Int) : Option String :=
  match (q.reverse.find? (fun p => p.1 == k)) with
  | some p => p.2
  | none => none

/-- Python `k in qualifiers`: key presence. -/
def qHasKey (q : List (Int × Option String)) (k : Int) : Bool :=
  q.any (fun p => p.1 == k)

/-- Python `int(x)` on an optional string: `int(None)` raises `TypeError`;
a non-numeric string raises `ValueError`. Only plain nonempty digit strings
are modelled as numeric. -/
def digitsToNat (ds : List Char) : Nat :=
  ds.foldl (fun a c => 10 * a + (c.toNat - 48)) 0

def pyIntOfStr (s : String) : Except PyError Int :=
  if s.data ≠ [] ∧ s.data.all Char.isDigit then .ok (digitsToNat s.data : Nat)
  else .error .valueError

def pyIntOfOptStr : Option String → Except PyError Int
  | none => .error .typeError
  | some s => pyIntOfStr s

/-- Python `str.split(sep)` for a one-character separator: `"" ↦ [""]`,
`"a.b" ↦ ["a","b"]`, empty groups kept. -/
def splitOnChar (c : Char) : List Char → List (List Char)
  | [] => [[]]
  | x :: xs =>
    if x = c then [] :: splitOnChar c xs
    else
      match splitOnChar c xs with
      | [] => [[x]]
      | g :: gs => (x :: g) :: gs

/-- Decimal digit character for `n < 10` (else `'9'`). -/
def digitChar : Nat → Char
  | 0 => '0' | 1 => '1' | 2 => '2' | 3 => '3' | 4 => '4'
  | 5 => '5' | 6 => '6' | 7 => '7' | 8 => '8' | _ => '9'

/-- Decimal digit rendering with an explicit fuel bound (structural
recursion, so that concrete evaluations reduce inside the kernel). -/
def natDigitsAux : Nat → Nat → List Char
  | 0, _ => []
  | fuel + 1, n =>
    if n < 10 then [digitChar n]
    else natDigitsAux fuel (n / 10) ++ [digitChar (n % 10)]

/-- Decimal digit string of a natural number (its Python `repr`). -/
def natDigits (n : Nat) : List Char := natDigitsAux (n + 1) n

/-- Python `f-string` formatting `:03d` of a nonnegative integer: the decimal
digits, left-padded with zeros to width at least three. -/
def pad3 (n : Nat) : List Char :=
  if (natDigits n).length < 3 then
    List.replicate (3 - (natDigits n).length) '0' ++ natDigits n
  else natDigits n

/-- Python `".".join(parts)` on character lists. -/
def joinDot : List (List Char) → List Char
  | [] => []
  | [g] => g
  | g :: gs => g ++ '.' :: joinDot gs

/-- The inner helper `zero_pad_milliseconds` of `_parse_insight_datetime`
(insight.py, lines 62-67): split on `'.'`; a string without a dot gets
`".000"` appended, otherwise the final part is passed through `int(...)`
and re-rendered with `f-string` `:03d` padding. `int` of a non-numeric
final part raises `ValueError`. -/
def zero_pad_milliseconds (timestamp : String) : Except PyError String :=
  let parts := splitOnChar '.' timestamp.data
  match parts with
  | [] => .ok timestamp
  | [_] => .ok (timestamp ++ ".000")
  | _ =>
    match pyIntOfStr ⟨parts.getLast!⟩ with
    | .error e => .error e
    | .ok n =>
      .ok ⟨joinDot (parts.dropLast ++ [pad3 n.toNat])⟩

/-- A naive (timezone-unaware) datetime as parsed by `datetime.strptime`. -/
structure NaiveDT where
  year : Nat
  month : Nat
  day : Nat
  hour : Nat
  minute : Nat
  second : Nat
  micro : Nat
deriving DecidableEq, Repr

def isLeapYear (y : Nat) : Bool :=
  (y % 4 == 0 && y % 100 != 0) || y % 400 == 0

def daysInMonth (y m : Nat) : Nat :=
  if m = 2 then (if isLeapYear y then 29 else 28)
  else if m = 4 ∨ m = 6 ∨ m = 9 ∨ m = 11 then 30
  else 31

/-- Days from the Unix epoch (1970-01-01) of a proleptic Gregorian date with
`year ≥ 1` (standard civil-from-days algorithm, all divisions on naturals). -/
def daysFromCivil (y m d : Nat) : Int :=
  let yy := if m ≤ 2 then y - 1 else y
  let era := yy / 400
  let yoe := yy - era * 400
  let mp := (m + 9) % 12
  let doy := (153 * mp + 2) / 5 + d - 1
  let doe := yoe * 365 + yoe / 4 - yoe / 100 + doy
  (era * 146097 + doe : Int) - 719468

/-- Microseconds since the Unix epoch of a naive datetime. -/
def naiveToUs (n : NaiveDT) : Int :=
  daysFromCivil n.year n.month n.day * 86400000000
    + n.hour * 3600000000 + n.minute * 60000000 + n.second * 1000000 + n.micro

/-- Weekday of a day count (0 = Sunday, ..., 6 = Saturday). -/
def weekdayOfDays (d : Int) : Int := (d + 4) % 7

/-- Day of month of the last Sunday of a month. -/
def lastSundayOf (y m : Nat) : Nat :=
  let l := daysInMonth y m
  l - (weekdayOfDays (daysFromCivil y m l)).toNat

/-- Modelled from the spec: the `pytz` timezone `Europe/London` (an external
library; the spec fixes "interpreted in a fixed source timezone
(Europe/London) and normalized to UTC"). British Summer Time (UTC+1) runs
from 01:00 local on the last Sunday of March to 02:00 local on the last
Sunday of October; the one-hour ambiguous/nonexistent transition windows
are resolved to the nearest rule boundary. Offset in microseconds. -/
def londonOffsetUs (n : NaiveDT) : Int :=
  let t := naiveToUs n
  let a := naiveToUs ⟨n.year, 3, lastSundayOf n.year 3, 1, 0, 0, 0⟩
  let b := naiveToUs ⟨n.year, 10, lastSundayOf n.year 10, 2, 0, 0, 0⟩
  if a ≤ t ∧ t < b then 3600000000 else 0

/-- `timezone.localize(naive).astimezone(pytz.utc)`: reinterpret a naive
London time as an aware datetime and convert it to UTC microseconds. -/
def londonToUtcUs (n : NaiveDT) : Int :=
  naiveToUs n - londonOffsetUs n

def parseNatField (ds : List Char) (lo hi : Nat) : Option Nat :=
  if lo ≤ ds.length ∧ ds.length ≤ hi ∧ ds.all Char.isDigit then
    some (digitsToNat ds)
  else none

/-- Strict `datetime.strptime` with format `"%Y-%m-%d<sep>%H:%M:%S.%f"`:
four-digit year, one/two-digit month, day, hour, minute, second, a fraction
of one to six digits right-padded to microseconds, and field range checks
as performed by the `datetime` constructor. Failure models `ValueError`. -/
def strptimeDt (sep : Char) (s : String) : Option NaiveDT :=
  match splitOnChar sep s.data with
  | [dpart, tpart] =>
    match splitOnChar '-' dpart, splitOnChar ':' tpart with
    | [ys, ms, ds], [hs, mins, secfrac] =>
      match splitOnChar '.' secfrac with
      | [ss, fs] =>
        match parseNatField ys 4 4, parseNatField ms 1 2, parseNatField ds 1 2,
              parseNatField hs 1 2, parseNatField mins 1 2, parseNatField ss 1 2,
              parseNatField fs 1 6 with
        | some y, some mo, some d, some h, some mi, some sec, some _ =>
          let micro := digitsToNat fs * 10 ^ (6 - fs.length)
          if 1 ≤ y ∧ y ≤ 9999 ∧ 1 ≤ mo ∧ mo ≤ 12 ∧ 1 ≤ d ∧ d ≤ daysInMonth y mo
              ∧ h ≤ 23 ∧ mi ≤ 59 ∧ sec ≤ 59 then
            some ⟨y, mo, d, h, mi, sec, micro⟩
          else none
        | _, _, _, _, _, _, _ => none
      | _ => none
    | _, _ => none
  | _ => .none

/-- The Second Spectrum insight timestamp parser `_parse_insight_datetime`
(insight.py, lines 61-73): zero-pad the millisecond part, parse strictly
with `"%Y-%m-%dT%H:%M:%S.%f"`, localize in `Europe/London` and convert to
UTC. The result is the aware UTC datetime in microseconds since the epoch. -/
def _parse_insight_datetime (dt_str : String) : Except PyError Int :=
  match zero_pad_milliseconds dt_str with
  | .error e => .error e
  | .ok s =>
    match strptimeDt 'T' s with
    | none => .error .valueError
    | some naive => .ok (londonToUtcUs naive)

/-! Event type codes and type sets. The constants are imported by insight.py
from the statsperform deserializer module, which is outside `src/`; they are
modelled from the spec ("a type-code table", fixed "ball owning" and
"dead ball" sets) with the well-known Opta type ids. Every claim proved
below depends only on the constants being pairwise distinct where the
dispatch chain distinguishes them, never on the particular numbers. -/

def EVENT_TYPE_PASS : Int := 1
def EVENT_TYPE_OFFSIDE_PASS : Int := 2
def EVENT_TYPE_TAKE_ON : Int := 3
def EVENT_TYPE_FOUL_COMMITTED : Int := 4
def EVENT_TYPE_INTERCEPTION : Int := 8
def EVENT_TYPE_CLEARANCE : Int := 12
def EVENT_TYPE_SHOT_MISS : Int := 13
def EVENT_TYPE_SHOT_POST : Int := 14
def EVENT_TYPE_SHOT_SAVED : Int := 15
def EVENT_TYPE_SHOT_GOAL : Int := 16
def EVENT_TYPE_CARD : Int := 17
def EVENT_TYPE_PLAYER_OFF : Int := 18
def EVENT_TYPE_PLAYER_ON : Int := 19
def EVENT_TYPE_END_PERIOD : Int := 30
def EVENT_TYPE_START_PERIOD : Int := 32
def EVENT_TYPE_FORMATION_CHANGE : Int := 40
def EVENT_TYPE_RECOVERY : Int := 49
def EVENT_TYPE_BALL_TOUCH : Int := 61
def EVENT_TYPE_BLOCKED_PASS : Int := 74

/-- Modelled from the spec: the fixed "ball owning" type set
(`BALL_OWNING_EVENTS` of the statsperform module, outside `src/`). -/
def BALL_OWNING_EVENTS : List Int :=
  [EVENT_TYPE_PASS, EVENT_TYPE_OFFSIDE_PASS, EVENT_TYPE_TAKE_ON,
   EVENT_TYPE_SHOT_MISS, EVENT_TYPE_SHOT_POST, EVENT_TYPE_SHOT_SAVED,
   EVENT_TYPE_SHOT_GOAL, EVENT_TYPE_RECOVERY]

/-- Modelled from the spec: the fixed "dead ball" type set
(`DEAD_BALL_EVENTS` of the statsperform module, outside `src/`). -/
def DEAD_BALL_EVENTS : List Int :=
  [5, 6, EVENT_TYPE_CARD, EVENT_TYPE_PLAYER_OFF, EVENT_TYPE_PLAYER_ON,
   27, 28, EVENT_TYPE_END_PERIOD, EVENT_TYPE_START_PERIOD]

/-- Modelled from the spec: the duel-family type set (`DUEL_EVENTS`,
outside `src/`). -/
def DUEL_EVENTS : List Int := [7, 44, 45, 54]

/-- Modelled from the spec: the goalkeeper-family type set (`KEEPER_EVENTS`,
outside `src/`). -/
def KEEPER_EVENTS : List Int := [10, 11, 41, 52, 53]

/-- Modelled from the spec: the ball-out family type set (`BALL_OUT_EVENTS`,
outside `src/`). -/
def BALL_OUT_EVENTS : List Int := [5, 6]

/-- Modelled from the spec: the fixed position-line table
(`position_line_mapping` of the statsperform module, outside `src/`) that
maps the qualifier-44 label of an incoming player to a tactical line. -/
inductive PositionLine where
  | goalkeeper
  | defender
  | midfielder
  | striker
deriving DecidableEq, Repr

def position_line_mapping : List (String × PositionLine) :=
  [("Goalkeeper", .goalkeeper), ("Defender", .defender),
   ("Midfielder", .midfielder), ("Striker", .striker)]

/-- Python dict indexing `position_line_mapping[key]` (a missing key raises
`KeyError`, handled at the call site). -/
def plLookup (key : String) : Option PositionLine :=
  (position_line_mapping.find? (fun p => p.1 == key)).map (·.2)

/-- Python list indexing `xs[i]`: a negative index wraps around from the end
of the list; an index that is out of range on both ends raises `IndexError`,
which is conflated with `none` here (this case is unreachable from
`parse_events`, whose indices are at least `-1` into a nonempty list). -/
def pyIndex {α : Type} (xs : List α) (i : Int) : Option α :=
  if 0 ≤ i then xs.get? i.toNat
  else if 0 ≤ (xs.length : Int) + i then xs.get? ((xs.length : Int) + i).toNat
  else none

/-- The neighbor lookup `_parse_nearby_event` (insight.py, lines 76-85):
`raw_events[idx + offset]` when `idx + offset < len(raw_events)`, else
`None`. Note that only the upper bound is guarded. -/
def _parse_nearby_event (raw_events : List OptaEvent) (idx offset : Int) :
    Option OptaEvent :=
  if idx + offset < (raw_events.length : Int) then pyIndex raw_events (idx + offset)
  else none

/-- The period lookup `_parse_period` (insight.py, lines 88-99): the first
period whose id equals the event's period id, else `None`. -/
def _parse_period (raw_event : OptaEvent) (periods : List Period) : Option Period :=
  periods.find? (fun p => p.id == raw_event.period_id)

/-- The team resolution `_parse_team` (insight.py, lines 129-138): match the
event's `contestant_id` against the two team ids, else raise
`DeserializationError`. -/
def _parse_team (raw_event : OptaEvent) (teams : Team × Team) :
    Except PyError Team :=
  if raw_event.contestant_id = teams.1.team_id then .ok teams.1
  else if raw_event.contestant_id = teams.2.team_id then .ok teams.2
  else .error (.deserialization ("Unknown team_id " ++ raw_event.contestant_id))

/-- The keyword arguments returned by `_parse_substitution`. -/
structure SubInfo where
  replacement_player : Option Player
  position : PositionLine
deriving DecidableEq, Repr

/-- The substitution resolver `_parse_substitution` (insight.py, lines
102-126). It reads qualifier 55 (`int(None)` raises `TypeError`), scans the
previous then the next neighbor for a player-on event with the matching
event id (reading `type_id` of a `None` neighbor raises `AttributeError`),
falls through to a `DeserializationError` when neither matches, and maps
the matched event's qualifier 44 through `position_line_mapping` (a falsy
or missing qualifier 44 leaves `position` unbound, raising
`UnboundLocalError`, modelled as `nameError`; a label outside the table
raises `KeyError`). -/
def _parse_substitution (current_event : OptaEvent)
    (previous_event next_event : Option OptaEvent) (team : Team) :
    Except PyError SubInfo :=
  match pyIntOfOptStr (qGet current_event.qualifiers 55) with
  | .error e => .error e
  | .ok related_event_id =>
    let finish : OptaEvent → Except PyError SubInfo := fun related_event =>
      let replacement_player := getPlayerByOptId team related_event.player_id
      match qGet related_event.qualifiers 44 with
      | some v =>
        if v ≠ "" then
          match plLookup v with
          | some position => .ok ⟨replacement_player, position⟩
          | none => .error .keyError
        else .error .nameError
      | none => .error .nameError
    match previous_event with
    | none => .error .attrError
    | some p =>
      if p.type_id = EVENT_TYPE_PLAYER_ON ∧ p.event_id = related_event_id then
        finish p
      else
        match next_event with
        | none => .error .attrError
        | some n =>
          if n.type_id = EVENT_TYPE_PLAYER_ON ∧ n.event_id = related_event_id then
            finish n
          else
            .error (.deserialization
              ("Unable to determine replacement player for event_id "
                ++ toString current_event.event_id))

/-- The constructor branch of the dispatch chain that built an event; the
type-specific keyword arguments of the external builders (`_parse_pass`,
`_parse_shot`, ... of the statsperform module, outside `src/`) are not
modelled beyond the branch taken, per the spec's step 9. -/
inductive EventKind where
  | passEv
  | offsidePassEv
  | takeOn
  | shot
  | recovery
  | clearance
  | duel
  | interception
  | keeper
  | block
  | miscontrol
  | foulCommitted
  | ballOut
  | formationChange
  | substitution
  | card
  | generic
deriving DecidableEq, Repr

/-- A canonical event as assembled by `parse_events`: the shared
`generic_event_kwargs` (insight.py, lines 229-241) plus the constructor tag
and, for substitutions, the `_parse_substitution` result. -/
structure BuiltEvent where
  kind : EventKind
  period_id : Int
  timestamp : PyTime
  ball_owning_team : Option String
  ball_state : BallState
  event_id : String
  team_id : String
  player : Option Player
  coordinates : Point
  substitution : Option SubInfo
deriving DecidableEq, Repr

/-- The caller-configured surroundings of the event loop: the external
inclusion predicate `deserializer.should_include_event` and the external
coordinate transformer (which, per the spec, rewrites point coordinates
only). -/
structure ParseConfig where
  shouldInclude : BuiltEvent → Bool
  transformPoint : Point → Point

/-- Coordinate transformation of an emitted event
(`transformer.transform_event`): rewrites the coordinates, leaving the
remaining fields unchanged. -/
def applyTransform (cfg : ParseConfig) (b : BuiltEvent) : BuiltEvent :=
  { b with coordinates := cfg.transformPoint b.coordinates }

/-- In-place mutation `period.start_timestamp = ts` through the alias
returned by `_parse_period`: updates the first period with the given id. -/
def setStart (periods : List Period) (pid : Int) (ts : PyTime) : List Period :=
  match periods with
  | [] => []
  | p :: ps =>
    if p.id == pid then { p with start_timestamp := some ts } :: ps
    else p :: setStart ps pid ts

/-- In-place mutation `period.end_timestamp = ts`: updates the first period
with the given id. -/
def setEnd (periods : List Period) (pid : Int) (ts : PyTime) : List Period :=
  match periods with
  | [] => []
  | p :: ps =>
    if p.id == pid then { p with end_timestamp := some ts } :: ps
    else p :: setEnd ps pid ts

/-- The loop state of `parse_events`: the (aliased, in-place mutated) period
list, the running `possession_team`, and the accumulated output events. -/
structure PState where
  periods : List Period
  possession : Option Team
  events : List BuiltEvent
deriving DecidableEq, Repr

/-- The type-specific dispatch chain of `parse_events` (insight.py, lines
243-403), reduced to the branch tag, the (possibly recomputed or clamped)
timestamp, and the substitution kwargs. `pt` is the period's current start
timestamp, `ts` the already-computed relative timestamp. -/
def dispatchBranch (raw : List OptaEvent) (idx : Int) (e : OptaEvent)
    (team : Team) (pt : PyTime) (ts : PyTime) :
    Except PyError (EventKind × PyTime × Option SubInfo) :=
  let next_event := _parse_nearby_event raw idx 1
  let previous_event := _parse_nearby_event raw idx (-1)
  if e.type_id = EVENT_TYPE_PASS then .ok (.passEv, ts, none)
  else if e.type_id = EVENT_TYPE_OFFSIDE_PASS then .ok (.offsidePassEv, ts, none)
  else if e.type_id = EVENT_TYPE_TAKE_ON then .ok (.takeOn, ts, none)
  else if e.type_id = EVENT_TYPE_SHOT_MISS ∨ e.type_id = EVENT_TYPE_SHOT_POST
      ∨ e.type_id = EVENT_TYPE_SHOT_SAVED ∨ e.type_id = EVENT_TYPE_SHOT_GOAL then
    if e.type_id = EVENT_TYPE_SHOT_GOAL ∧ qHasKey e.qualifiers 374 then
      match qGet e.qualifiers 374 with
      | none => .error .typeError
      | some s =>
        match strptimeDt ' ' s with
        | none => .error .valueError
        | some naive => .ok (.shot, subDtFrom (londonToUtcUs naive) pt, none)
    else .ok (.shot, ts, none)
  else if e.type_id = EVENT_TYPE_RECOVERY then .ok (.recovery, ts, none)
  else if e.type_id = EVENT_TYPE_CLEARANCE then .ok (.clearance, ts, none)
  else if e.type_id ∈ DUEL_EVENTS then .ok (.duel, ts, none)
  else if e.type_id = EVENT_TYPE_INTERCEPTION ∨ e.type_id = EVENT_TYPE_BLOCKED_PASS then
    .ok (.interception, ts, none)
  else if e.type_id ∈ KEEPER_EVENTS then
    if qHasKey e.qualifiers 94 then .ok (.block, ts, none)
    else .ok (.keeper, ts, none)
  else if e.type_id = EVENT_TYPE_BALL_TOUCH ∧ e.outcome = 0 then
    .ok (.miscontrol, ts, none)
  else if e.type_id = EVENT_TYPE_FOUL_COMMITTED ∧ e.outcome = 0 then
    .ok (.foulCommitted, ts, none)
  else if e.type_id ∈ BALL_OUT_EVENTS then .ok (.ballOut, ts, none)
  else if e.type_id = EVENT_TYPE_FORMATION_CHANGE then
    match maxTd0 ts with
    | .error err => .error err
    | .ok ts2 => .ok (.formationChange, ts2, none)
  else if e.type_id = EVENT_TYPE_PLAYER_OFF then
    match maxTd0 ts with
    | .error err => .error err
    | .ok ts2 =>
      match _parse_substitution e previous_event next_event team with
      | .error err => .error err
      | .ok sub => .ok (.substitution, ts2, some sub)
  else if e.type_id = EVENT_TYPE_CARD then .ok (.card, ts, none)
  else .ok (.generic, ts, none)

/-- The player-resolution fragment of `parse_events` (insight.py, lines
217-219): `player = None`, overwritten by a roster lookup whenever the raw
event's `player_id` is not `None`. -/
def playerResolve (team : Team) (e : OptaEvent) : Option Player :=
  match e.player_id with
  | some pid => get_player_by_id team pid
  | none => none

/-- The possession team after an ordinary event (insight.py, lines
221-222): updated to the event's team on ball-owning types, else kept. -/
def possessionAfter (e : OptaEvent) (team : Team) (st : PState) : Option Team :=
  if e.type_id ∈ BALL_OWNING_EVENTS then some team else st.possession

/-- The event assembled from the `generic_event_kwargs` (insight.py, lines
229-241) and the dispatch result. -/
def builtOf (e : OptaEvent) (team : Team) (period : Period)
    (possession2 : Option Team) (kind : EventKind) (ts2 : PyTime)
    (sub : Option SubInfo) : BuiltEvent :=
  { kind := kind, period_id := period.id, timestamp := ts2,
    ball_owning_team := possession2.map (fun t => t.team_id),
    ball_state :=
      if e.type_id ∈ DEAD_BALL_EVENTS then BallState.dead else BallState.alive,
    event_id := e.id, team_id := team.team_id,
    player := playerResolve team e, coordinates := ⟨e.x, e.y⟩,
    substitution := sub }

/-- The body of the ordinary (non-marker) branch of the event loop
(insight.py, lines 212-406): resolve the player, update the possession
team, derive the ball state, compute the relative timestamp, dispatch on
the type code, filter and transform. -/
def processOrdinary (cfg : ParseConfig) (raw : List OptaEvent) (idx : Int)
    (e : OptaEvent) (st : PState) (team : Team) (period : Period)
    (pt : PyTime) : Except PyError PState :=
  match dispatchBranch raw idx e team pt (subDtFrom e.timestamp pt) with
  | .error err => .error err
  | .ok (kind, ts2, sub) =>
    .ok { periods := st.periods, possession := possessionAfter e team st,
          events :=
            if cfg.shouldInclude
                (builtOf e team period (possessionAfter e team st) kind ts2 sub)
            then st.events ++
              [applyTransform cfg
                (builtOf e team period (possessionAfter e team st) kind ts2 sub)]
            else st.events }

/-- The not-yet-started gate (insight.py, lines 213-215): an ordinary event
is discarded while the owning period's start timestamp is falsy. -/
def processStartGate (cfg : ParseConfig) (raw : List OptaEvent) (idx : Int)
    (e : OptaEvent) (st : PState) (team : Team) (period : Period) :
    Except PyError PState :=
  match period.start_timestamp with
  | none => .ok st
  | some pt =>
    if pt.truthy then processOrdinary cfg raw idx e st team period pt
    else .ok st

/-- The marker / not-yet-started stage of one loop iteration (insight.py,
lines 200-215), reached once team and period have resolved. -/
def processAfterPeriod (cfg : ParseConfig) (raw : List OptaEvent) (idx : Int)
    (e : OptaEvent) (st : PState) (team : Team) (period : Period) :
    Except PyError PState :=
  if e.type_id = EVENT_TYPE_START_PERIOD then
    .ok { st with periods := setStart st.periods e.period_id (.dt e.timestamp) }
  else if e.type_id = EVENT_TYPE_END_PERIOD then
    .ok { st with periods := setEnd st.periods e.period_id (.dt e.timestamp) }
  else if e.type_id = EVENT_TYPE_PLAYER_ON then .ok st
  else processStartGate cfg raw idx e st team period

/-- The period-lookup stage of one loop iteration (insight.py, lines
189-198): an unmatched period id skips the event. -/
def processAfterTeam (cfg : ParseConfig) (raw : List OptaEvent) (idx : Int)
    (e : OptaEvent) (st : PState) (team : Team) : Except PyError PState :=
  match _parse_period e st.periods with
  | none => .ok st
  | some period => processAfterPeriod cfg raw idx e st team period

/-- One iteration of the `parse_events` loop (insight.py, lines 187-406) on
raw event `e` at index `idx`: team resolution (hard failure), period lookup
(skip when unmatched), the period-boundary and player-on marker branches,
the not-yet-started guard, then the ordinary branch. -/
def processEvent (cfg : ParseConfig) (teams : Team × Team)
    (raw : List OptaEvent) (idx : Int) (e : OptaEvent) (st : PState) :
    Except PyError PState :=
  match _parse_team e teams with
  | .error err => .error err
  | .ok team => processAfterTeam cfg raw idx e st team

/-- Run `fuel` iterations of the `parse_events` loop starting at raw-event
index `idx` (an index past the end of the list is a no-op, so
`runFrom ... raw.length 0` is the whole loop). -/
def runFrom (cfg : ParseConfig) (teams : Team × Team)
    (raw : List OptaEvent) : Nat → Nat → PState → Except PyError PState
  | 0, _, st => .ok st
  | fuel + 1, idx, st =>
    match raw.get? idx with
    | none => .ok st
    | some e =>
      match processEvent cfg teams raw (idx : Int) e st with
      | .error err => .error err
      | .ok st2 => runFrom cfg teams raw fuel (idx + 1) st2

/-- The event mapping dispatcher `InsightParser.parse_events` (insight.py,
lines 176-408): a single forward pass over the raw events with
`possession_team = None` and an empty output initially, returning the
emitted events. -/
def parse_events (cfg : ParseConfig) (teams : Team × Team)
    (raw_events : List OptaEvent) (periods : List Period) :
    Except PyError (List BuiltEvent) :=
  match runFrom cfg teams raw_events raw_events.length 0 ⟨periods, none, []⟩ with
  | .error err => .error err
  | .ok st => .ok st.events

/-! The raw-record extraction `InsightParser.extract_events` (insight.py,
lines 147-174). A feed line is modelled after JSON decoding: `none` for a
line whose object has no `"optaEvent"` dict, `some r` otherwise. Inside the
record, fields read with `[...]` are mandatory (the vendor schema), fields
read with `.get(...)` are `Option`s whose `none` models an absent key. -/

/-- One qualifier entry `{qualifierId?, value?, opValue?}` of a raw feed
record; `none` models an absent key. -/
structure QualifierItem where
  qualifierId : Option Int
  value : Option String
  opValue : Option String
deriving DecidableEq, Repr

/-- The decoded `obj["optaEvent"]` dict of one accepted feed line. -/
structure InsightRecord where
  id : String
  eventId : Int
  typeId : Int
  periodId : Int
  alignedClock : Option ℚ
  x : ℚ
  y : ℚ
  timeStamp : String
  lastModified : String
  opContestantId : Option String
  opPlayerId : Option String
  outcome : Option Int
  qualifier : List QualifierItem
deriving DecidableEq, Repr

/-- Python `str(x)` where `x` is an optional string: `str(None)` is the
literal string `"None"`. -/
def pyStrOfOpt : Option String → String
  | none => "None"
  | some s => s

/-- Python `int(x)` where `x` is an optional int: `int(None)` raises
`TypeError`. -/
def pyIntOfOptInt : Option Int → Except PyError Int
  | none => .error .typeError
  | some v => .ok v

/-- Python float floor `c // 60` followed by `int(...)`. -/
def clockMin (c : ℚ) : Int := Int.floor (c / 60)

/-- Python float modulo `c % 60` followed by `int(...)` (the modulo result
has the divisor's sign, so it lies in `[0, 60)` and `int` truncation equals
its floor). -/
def clockSec (c : ℚ) : Int := Int.floor (c - 60 * Int.floor (c / 60))

/-- The qualifier-collapsing dict comprehension (insight.py, lines 166-170):
entries lacking a `qualifierId` are dropped, `opValue` is preferred over
`value` (`item.get("opValue", item.get("value"))`), and the resulting
association list is read with last-wins lookup like a Python dict. -/
def buildQualifiers (items : List QualifierItem) : List (Int × Option String) :=
  items.filterMap (fun it =>
    match it.qualifierId with
    | some k => some (k, match it.opValue with | some v => some v | none => it.value)
    | none => none)

/-- The `OptaEvent` built from one accepted feed record once its fallible
field conversions have succeeded. -/
def buildOptaEventCore (r : InsightRecord) (ts lm outc : Int) : OptaEvent :=
  { id := r.id, event_id := r.eventId, type_id := r.typeId,
    period_id := r.periodId,
    time_min := match r.alignedClock with
                | some c => clockMin c
                | none => 0,
    time_sec := match r.alignedClock with
                | some c => clockSec c
                | none => 0,
    x := r.x, y := r.y, timestamp := ts, last_modified := lm,
    contestant_id := pyStrOfOpt r.opContestantId,
    player_id := some (pyStrOfOpt r.opPlayerId),
    outcome := outc,
    qualifiers := buildQualifiers r.qualifier }

/-- Conversion of one accepted feed record into an `OptaEvent` (the body of
the list comprehension of `extract_events`). -/
def buildOptaEvent (r : InsightRecord) : Except PyError OptaEvent :=
  match _parse_insight_datetime r.timeStamp with
  | .error e => .error e
  | .ok ts =>
    match _parse_insight_datetime r.lastModified with
    | .error e => .error e
    | .ok lm =>
      match pyIntOfOptInt r.outcome with
      | .error e => .error e
      | .ok outc => .ok (buildOptaEventCore r ts lm outc)

/-- Elementwise conversion of the accepted records, propagating the first
raised error. -/
def mapBuild : List InsightRecord → Except PyError (List OptaEvent)
  | [] => .ok []
  | r :: rs =>
    match buildOptaEvent r with
    | .error e => .error e
    | .ok ev =>
      match mapBuild rs with
      | .error e => .error e
      | .ok evs => .ok (ev :: evs)

/-- `InsightParser.extract_events` (insight.py, lines 147-174): keep the
lines carrying an `optaEvent` dict and convert each to an `OptaEvent`. -/
def extract_events (feed : List (Option InsightRecord)) :
    Except PyError (List OptaEvent) :=
  mapBuild (feed.filterMap id)

/-! The JSON metadata parser (metadata_json.py): frame rate and periods. -/

/-- Python `int(q)`: truncation toward zero. -/
def pyTrunc (q : ℚ) : Int := if 0 ≤ q then Int.floor q else Int.ceil q

/-- `MetadataJSONParser.extract_frame_rate` (metadata_json.py, lines 29-31):
`int(self.feed.get("fps", 25.0))`. -/
def extract_frame_rate (fps : Option ℚ) : Int :=
  match fps with
  | some v => pyTrunc v
  | none => pyTrunc 25

/-- One entry of the metadata `"periods"` array. -/
structure PeriodEntry where
  number : Int
  startFrameIdx : Int
  endFrameIdx : Int
deriving DecidableEq, Repr

/-- Python round-half-to-even of a rational to an integer, as `timedelta`
uses for fractional microseconds. -/
def roundHalfEven (q : ℚ) : Int :=
  let f := Int.floor q
  let r := q - (f : ℚ)
  if r < 1 / 2 then f
  else if 1 / 2 < r then f + 1
  else if f % 2 = 0 then f else f + 1

/-- Python `timedelta(seconds=s)` for an exactly-modelled float `s`: the
value is stored as integer microseconds, rounding half to even. -/
def tdSeconds (s : ℚ) : PyTime := .td (roundHalfEven (s * 1000000))

/-- Guarded float division `a / b` (`ZeroDivisionError` when `b = 0`). -/
def pyDiv (a b : ℚ) : Except PyError ℚ :=
  if b = 0 then .error .zeroDivision else .ok (a / b)

/-- `MetadataJSONParser.extract_periods` (metadata_json.py, lines 96-115):
keep every period entry whose start and end frame indices are not both
zero, converting frame indices to elapsed-time offsets by dividing by the
frame rate. -/
def extract_periods (entries : List PeriodEntry) (fps : Option ℚ) :
    Except PyError (List Period) :=
  match entries with
  | [] => .ok []
  | p :: ps =>
    if p.startFrameIdx ≠ 0 ∨ p.endFrameIdx ≠ 0 then
      match pyDiv (p.startFrameIdx : ℚ) ((extract_frame_rate fps : Int) : ℚ) with
      | .error e => .error e
      | .ok s =>
        match pyDiv (p.endFrameIdx : ℚ) ((extract_frame_rate fps : Int) : ℚ) with
        | .error e => .error e
        | .ok t =>
          match extract_periods ps fps with
          | .error e => .error e
          | .ok rest =>
            .ok (⟨p.number, some (tdSeconds s), some (tdSeconds t)⟩ :: rest)
    else extract_periods ps fps

/-- The spec's description of period extraction (§4.2 "Periods" and §8
"Unplayed period exclusion"), written from the spec's words for the
refinement claim C7: exclude exactly the entries with both frame indices
zero; every other entry yields a period whose start and end timestamps are
the frame indices divided by the frame rate, as elapsed-time offsets. -/
def extract_periods_spec (entries : List PeriodEntry) (frameRate : Int) :
    List Period :=
  (entries.filter (fun p => !(p.startFrameIdx == 0 && p.endFrameIdx == 0))).map
    (fun p => ⟨p.number,
      some (tdSeconds ((p.startFrameIdx : ℚ) / (frameRate : ℚ))),
      some (tdSeconds ((p.endFrameIdx : ℚ) / (frameRate : ℚ)))⟩)

/-! The format detector for metadata feeds (`parsers/__init__.py`,
`get_metadata_parser`, lines 35-53). -/

/-- The parser implementations selectable by the detector. -/
inductive ParserChoice where
  | metadataJSON
deriving DecidableEq, Repr

/-- Python `str.upper`, modelled for ASCII strings: lowercase ASCII letters
are mapped to uppercase, every other character is unchanged. (Full Unicode
upper-casing, e.g. of `ſ`, is outside the model; the theorems about tags
quantify over ASCII behaviour.) -/
def pyUpperChar (c : Char) : Char :=
  if 'a' ≤ c ∧ c ≤ 'z' then Char.ofNat (c.toNat - 32) else c

def pyUpperStr (s : String) : String := ⟨s.data.map pyUpperChar⟩

/-- The metadata parser selector `get_metadata_parser` (lines 35-53 of
`parsers/__init__.py`): with no explicit tag, a first stream character of
`'<'` classifies the feed as `"XML"`, anything else (including an empty
stream) as `"JSON"`; the tag is upper-cased and only `"JSON"` is
implemented, everything else raises `NotImplementedError`. -/
def getMetadataParser (feed : String) (feed_format : Option String) :
    Except PyError ParserChoice :=
  let fmt0 :=
    match feed_format with
    | none => if feed.data.head? = some '<' then "XML" else "JSON"
    | some t => t
  let fmt := pyUpperStr fmt0
  if fmt = "JSON" then .ok .metadataJSON
  else
    .error (.notImpl
      ("A parser for metadata feeds in " ++ fmt ++ " format is not yet implemented."))

/-! Concrete fixtures used by the witnesses and counterexamples below. -/

/-- A home team with two rostered players. -/
def teamA : Team := ⟨"T1", "Alpha", [⟨"P1", "One"⟩, ⟨"P2", "Two"⟩]⟩

/-- An away team with an empty roster. -/
def teamB : Team := ⟨"T2", "Beta", []⟩

/-- A configuration that includes every event and transforms nothing. -/
def cfg0 : ParseConfig := ⟨fun _ => true, fun pt => pt⟩

/-- A single period as the metadata parser would create it before any
start/end markers are seen, with both timestamps unset. -/
def periodsUnset : List Period := [⟨1, none, none⟩]

/-- A single period as `extract_periods` actually creates it: with a
nonzero metadata-derived start timestamp already filled in. -/
def periodsPrefilled : List Period := [⟨1, some (.td 5000000), none⟩]

/-- A template raw event (an ordinary pass by the home team). -/
def baseEvent : OptaEvent :=
  { id := "E0", event_id := 1, type_id := EVENT_TYPE_PASS, period_id := 1,
    time_min := 0, time_sec := 0, x := 50, y := 50, timestamp := 1000000,
    last_modified := 1000000, contestant_id := "T1", player_id := some "P1",
    outcome := 1, qualifiers := [] }

/-- A period-start marker for period 1. -/
def evStart : OptaEvent :=
  { baseEvent with
    id := "E1", event_id := 2,
    type_id := EVENT_TYPE_START_PERIOD, timestamp := 1000000 }

/-- A player-on marker with event id 7 bringing on player P2, carrying
position qualifier 44. -/
def evOn : OptaEvent :=
  { baseEvent with
    id := "E2", event_id := 7, type_id := EVENT_TYPE_PLAYER_ON,
    player_id := some "P2", timestamp := 1500000,
    qualifiers := [(44, some "Striker")] }

/-- A player-off event for player P1 whose qualifier 55 references event
id 7. -/
def evOff : OptaEvent :=
  { baseEvent with
    id := "E3", event_id := 8, type_id := EVENT_TYPE_PLAYER_OFF,
    player_id := some "P1", timestamp := 2000000,
    qualifiers := [(55, some "7")] }

/-- An ordinary recovery event by the home team. -/
def evRecovery : OptaEvent :=
  { baseEvent with
    id := "E4", event_id := 9, type_id := EVENT_TYPE_RECOVERY,
    timestamp := 1200000 }

/-- A card event by the home team. -/
def evCardA : OptaEvent :=
  { baseEvent with
    id := "E5", event_id := 10, type_id := EVENT_TYPE_CARD,
    timestamp := 1300000 }

/-- A card event by the away team. -/
def evCardB : OptaEvent :=
  { baseEvent with
    id := "E6", event_id := 11, type_id := EVENT_TYPE_CARD,
    contestant_id := "T2", player_id := some "P9", timestamp := 1400000 }

/-- A raw event whose team reference matches neither team and whose period
id matches no period. -/
def evUnknownTeam : OptaEvent :=
  { baseEvent with
    id := "E7", event_id := 12, contestant_id := "TX",
    period_id := 99 }

/-! Possession tracking (claim C6). -/

/-- Whether an event reaches the ordinary dispatch stage of the loop from
loop state `st`: its team resolves, its period is found, it is none of the
three marker types, and the owning period's start timestamp is truthy. -/
def stepReachesDispatch (teams : Team × Team) (st : PState) (e : OptaEvent) :
    Bool :=
  (match _parse_team e teams with
   | .ok _ => true
   | .error _ => false) &&
  (match _parse_period e st.periods with
   | some p =>
     !(e.type_id == EVENT_TYPE_START_PERIOD) &&
     !(e.type_id == EVENT_TYPE_END_PERIOD) &&
     !(e.type_id == EVENT_TYPE_PLAYER_ON) &&
     optTruthy p.start_timestamp
   | none => false)

/-- Whether, starting the loop at index `idx0` in state `st`, the event at
index `k` is a processed (dispatch-reaching) ball-owning event. -/
def dispatchOwningFrom (cfg : ParseConfig) (teams : Team × Team)
    (raw : List OptaEvent) (idx0 : Nat) (st : PState) (k : Nat) : Bool :=
  match runFrom cfg teams raw (k - idx0) idx0 st with
  | .ok stk =>
    match raw.get? k with
    | some e =>
      stepReachesDispatch teams stk e && decide (e.type_id ∈ BALL_OWNING_EVENTS)
    | none => false
  | .error _ => false

/-- The first card event of the C6 witness run, as emitted. -/
def c6Card1 : BuiltEvent :=
  { kind := .card, period_id := 1, timestamp := .dt (-3700000),
    ball_owning_team := none, ball_state := .dead, event_id := "E5",
    team_id := "T1", player := some ⟨"P1", "One"⟩, coordinates := ⟨50, 50⟩,
    substitution := none }

/-- The second card event of the C6 witness run, as emitted. -/
def c6Card2 : BuiltEvent :=
  { kind := .card, period_id := 1, timestamp := .dt (-3600000),
    ball_owning_team := none, ball_state := .dead, event_id := "E6",
    team_id := "T2", player := none, coordinates := ⟨50, 50⟩,
    substitution := none }

/-- The pass event of the C6 witness step, as emitted: it carries its own
team as the ball-owning team. -/
def c6Pass : BuiltEvent :=
  { kind := .passEv, period_id := 1, timestamp := .dt (-4000000),
    ball_owning_team := some "T1", ball_state := .alive, event_id := "E0",
    team_id := "T1", player := some ⟨"P1", "One"⟩, coordinates := ⟨50, 50⟩,
    substitution := none }

/-- A tag is one of the sixteen letter-case variants of `"json"`. -/
def isJsonCasing (t : String) : Bool :=
  match t.data with
  | [a, b, c, d] =>
    (a == 'j' || a == 'J') && (b == 's' || b == 'S') &&
    (c == 'o' || c == 'O') && (d == 'n' || d == 'N')
  | _ => false

/-- A feed record with the `opContestantId`, `opPlayerId` and
`alignedClock` keys absent. -/
def rec9 : InsightRecord :=
  { id := "R1", eventId := 5, typeId := 1, periodId := 1,
    alignedClock := none, x := 10, y := 20,
    timeStamp := "2021-05-01T20:00:00.500",
    lastModified := "2021-05-01T20:00:00.500",
    opContestantId := none, opPlayerId := none, outcome := some 1,
    qualifier := [] }

theorem processEvent_team_error (cfg : ParseConfig) (teams : Team × Team)
    (raw : List OptaEvent) (idx : Int) (e : OptaEvent) (st : PState)
    (err : PyError) (h : _parse_team e teams = .error err) :
    processEvent cfg teams raw idx e st = .error err := by
  unfold processEvent
  rw [h]

theorem processEvent_team_ok (cfg : ParseConfig) (teams : Team × Team)
    (raw : List OptaEvent) (idx : Int) (e : OptaEvent) (st : PState)
    (team : Team) (h : _parse_team e teams = .ok team) :
    processEvent cfg teams raw idx e st =
      processAfterTeam cfg raw idx e st team := by
  unfold processEvent
  rw [h]

theorem processAfterTeam_period_none (cfg : ParseConfig)
    (raw : List OptaEvent) (idx : Int) (e : OptaEvent) (st : PState)
    (team : Team) (h : _parse_period e st.periods = none) :
    processAfterTeam cfg raw idx e st team = .ok st := by
  unfold processAfterTeam
  rw [h]

theorem processAfterTeam_period_some (cfg : ParseConfig)
    (raw : List OptaEvent) (idx : Int) (e : OptaEvent) (st : PState)
    (team : Team) (period : Period)
    (h : _parse_period e st.periods = some period) :
    processAfterTeam cfg raw idx e st team =
      processAfterPeriod cfg raw idx e st team period := by
  unfold processAfterTeam
  rw [h]

theorem processStartGate_none (cfg : ParseConfig) (raw : List OptaEvent)
    (idx : Int) (e : OptaEvent) (st : PState) (team : Team) (period : Period)
    (h : period.start_timestamp = none) :
    processStartGate cfg raw idx e st team period = .ok st := by
  unfold processStartGate
  rw [h]

theorem processStartGate_some (cfg : ParseConfig) (raw : List OptaEvent)
    (idx : Int) (e : OptaEvent) (st : PState) (team : Team) (period : Period)
    (pt : PyTime) (h : period.start_timestamp = some pt) :
    processStartGate cfg raw idx e st team period =
      (if pt.truthy then processOrdinary cfg raw idx e st team period pt
       else .ok st) := by
  unfold processStartGate
  rw [h]

theorem processOrdinary_err (cfg : ParseConfig) (raw : List OptaEvent)
    (idx : Int) (e : OptaEvent) (st : PState) (team : Team) (period : Period)
    (pt : PyTime) (err : PyError)
    (hd : dispatchBranch raw idx e team pt (subDtFrom e.timestamp pt) =
      .error err) :
    processOrdinary cfg raw idx e st team period pt = .error err := by
  unfold processOrdinary
  rw [hd]

theorem processOrdinary_eq (cfg : ParseConfig) (raw : List OptaEvent)
    (idx : Int) (e : OptaEvent) (st : PState) (team : Team) (period : Period)
    (pt : PyTime) (kind : EventKind) (ts2 : PyTime) (sub : Option SubInfo)
    (hd : dispatchBranch raw idx e team pt (subDtFrom e.timestamp pt) =
      .ok (kind, ts2, sub)) :
    processOrdinary cfg raw idx e st team period pt =
      .ok { periods := st.periods, possession := possessionAfter e team st,
            events :=
              if cfg.shouldInclude
                  (builtOf e team period (possessionAfter e team st) kind ts2
                    sub)
              then st.events ++
                [applyTransform cfg
                  (builtOf e team period (possessionAfter e team st) kind ts2
                    sub)]
              else st.events } := by
  unfold processOrdinary
  rw [hd]


/-! Auxiliary lemmas about the string plumbing of `zero_pad_milliseconds`. -/

theorem splitOnChar_of_not_mem {c : Char} {xs : List Char} (h : c ∉ xs) :
    splitOnChar c xs = [xs] := by
  induction xs with
  | nil => rfl
  | cons x xs ih =>
    have hx : x ≠ c := by
      intro hc
      exact h (hc ▸ List.mem_cons_self x xs)
    have ht : c ∉ xs := fun hm => h (List.mem_cons_of_mem x hm)
    simp [splitOnChar, hx, ih ht]

theorem splitOnChar_ne_nil (c : Char) (xs : List Char) :
    splitOnChar c xs ≠ [] := by
  cases xs with
  | nil => simp [splitOnChar]
  | cons x xs =>
    by_cases hx : x = c
    · simp [splitOnChar, hx]
    · simp only [splitOnChar, if_neg hx]
      cases splitOnChar c xs <;> simp

theorem splitOnChar_append {c : Char} {xs : List Char} (ys : List Char)
    (h : c ∉ xs) : splitOnChar c (xs ++ c :: ys) = xs :: splitOnChar c ys := by
  induction xs with
  | nil => simp [splitOnChar]
  | cons x xs ih =>
    have hx : x ≠ c := by
      intro hc
      exact h (hc ▸ List.mem_cons_self x xs)
    have ht : c ∉ xs := fun hm => h (List.mem_cons_of_mem x hm)
    simp only [List.cons_append, splitOnChar, if_neg hx, List.append_eq, ih ht]

theorem digitChar_isDigit (n : Nat) : (digitChar n).isDigit = true := by
  rcases Nat.lt_or_ge n 10 with hn | hn
  · interval_cases n <;> rfl
  · obtain ⟨m, rfl⟩ : ∃ m, n = m + 10 := ⟨n - 10, by omega⟩
    rfl

theorem digitChar_val (n : Nat) (h : n < 10) :
    (digitChar n).toNat - 48 = n := by
  interval_cases n <;> rfl

theorem digitsToNat_append (xs : List Char) (c : Char) :
    digitsToNat (xs ++ [c]) = 10 * digitsToNat xs + (c.toNat - 48) := by
  unfold digitsToNat
  simp [List.foldl_append]

theorem natDigitsAux_ne_nil : ∀ fuel n, n < fuel → natDigitsAux fuel n ≠ [] := by
  intro fuel
  induction fuel with
  | zero => intro n h; omega
  | succ fuel _ =>
    intro n _
    unfold natDigitsAux
    split <;> simp

theorem natDigits_ne_nil (n : Nat) : natDigits n ≠ [] :=
  natDigitsAux_ne_nil (n + 1) n (by omega)

theorem natDigitsAux_all_digit :
    ∀ fuel n, n < fuel → ∀ c ∈ natDigitsAux fuel n, c.isDigit = true := by
  intro fuel
  induction fuel with
  | zero => intro n h; omega
  | succ fuel ih =>
    intro n hn c hc
    unfold natDigitsAux at hc
    split at hc
    · simp only [List.mem_singleton] at hc
      exact hc ▸ digitChar_isDigit n
    · next h10 =>
      rcases List.mem_append.1 hc with h | h
      · have hdiv : n / 10 < n := Nat.div_lt_self (by omega) (by omega)
        exact ih (n / 10) (by omega) c h
      · simp only [List.mem_singleton] at h
        exact h ▸ digitChar_isDigit (n % 10)

theorem natDigits_all_digit (n : Nat) : ∀ c ∈ natDigits n, c.isDigit = true :=
  natDigitsAux_all_digit (n + 1) n (by omega)

theorem digitsToNat_natDigitsAux :
    ∀ fuel n, n < fuel → digitsToNat (natDigitsAux fuel n) = n := by
  intro fuel
  induction fuel with
  | zero => intro n h; omega
  | succ fuel ih =>
    intro n hn
    unfold natDigitsAux
    split
    · next h =>
      show digitsToNat [digitChar n] = n
      unfold digitsToNat
      simp [digitChar_val n h]
    · next h =>
      have hdiv : n / 10 < n := Nat.div_lt_self (by omega) (by omega)
      rw [digitsToNat_append, ih (n / 10) (by omega),
        digitChar_val (n % 10) (Nat.mod_lt n (by omega))]
      omega

theorem digitsToNat_natDigits (n : Nat) : digitsToNat (natDigits n) = n :=
  digitsToNat_natDigitsAux (n + 1) n (by omega)

theorem digitsToNat_replicate_zero (k : Nat) (xs : List Char) :
    digitsToNat (List.replicate k '0' ++ xs) = digitsToNat xs := by
  induction k with
  | zero => rfl
  | succ k ih =>
    simp only [List.replicate_succ, List.cons_append]
    show digitsToNat (List.replicate k '0' ++ xs) = digitsToNat xs
    exact ih

theorem pad3_roundtrip (v : Nat) : digitsToNat (pad3 v) = v := by
  unfold pad3
  split
  · rw [digitsToNat_replicate_zero, digitsToNat_natDigits]
  · exact digitsToNat_natDigits v

theorem pad3_all_digit (v : Nat) : ∀ c ∈ pad3 v, c.isDigit = true := by
  unfold pad3
  intro c hc
  split at hc
  · rcases List.mem_append.1 hc with h | h
    · rw [List.eq_of_mem_replicate h]; decide
    · exact natDigits_all_digit v c h
  · exact natDigits_all_digit v c hc

theorem pad3_ne_nil (v : Nat) : pad3 v ≠ [] := by
  unfold pad3
  split
  · simp [natDigits_ne_nil]
  · exact natDigits_ne_nil v

theorem dot_not_mem_of_digits {ds : List Char}
    (h : ∀ c ∈ ds, c.isDigit = true) : '.' ∉ ds := by
  intro hm
  have := h '.' hm
  simp [Char.isDigit] at this

/-- Evaluation of `zero_pad_milliseconds` on a string with a digit fraction:
the fraction is rendered as its integer value, left-padded to width three. -/
theorem zero_pad_on_fraction (base : List Char) (ds : List Char)
    (hb : '.' ∉ base) (hne : ds ≠ []) (hdig : ∀ c ∈ ds, c.isDigit = true) :
    zero_pad_milliseconds ⟨base ++ '.' :: ds⟩ =
      .ok ⟨base ++ '.' :: pad3 (digitsToNat ds)⟩ := by
  unfold zero_pad_milliseconds
  have hsplit : splitOnChar '.' (String.data ⟨base ++ '.' :: ds⟩) =
      [base, ds] := by
    show splitOnChar '.' (base ++ '.' :: ds) = [base, ds]
    rw [splitOnChar_append ds hb, splitOnChar_of_not_mem (dot_not_mem_of_digits hdig)]
  rw [hsplit]
  have hint : pyIntOfStr ⟨[base, ds].getLast!⟩ = .ok (digitsToNat ds : Nat) := by
    show pyIntOfStr ⟨ds⟩ = _
    unfold pyIntOfStr
    rw [if_pos ⟨by simpa using hne, by simpa [List.all_eq_true] using hdig⟩]
  simp only [hint]
  have : (((digitsToNat ds : Nat) : Int)).toNat = digitsToNat ds := by
    simp
  rw [this]
  rfl

/-! Claim theorems. -/

/-- Claim C1, counterexample. The claim states that zero-padding makes a
truncated fractional part denote the same instant as its three-digit form,
in particular that `"2021-05-01T20:00:00.5"` parses to the same UTC instant
as `"2021-05-01T20:00:00.500"`. It does not: `f"{int('5'):03d}"` pads on
the left, so `".5"` becomes `".005"` (5 milliseconds), while `".500"` stays
500 milliseconds; the two strings parse to UTC instants 495 milliseconds
apart. -/
theorem C1_counterexample :
    _parse_insight_datetime "2021-05-01T20:00:00.5" = .ok 1619895600005000 ∧
    _parse_insight_datetime "2021-05-01T20:00:00.500" = .ok 1619895600500000 ∧
    _parse_insight_datetime "2021-05-01T20:00:00.5" ≠
      _parse_insight_datetime "2021-05-01T20:00:00.500" :=
  ⟨by decide, by decide, by decide⟩

/-- Claim C1, amended. `_parse_insight_datetime` interprets the fractional
part as an integer count and left-pads its decimal rendering with zeros to
at least three digits, so a raw timestamp string with any digit fraction
parses to the same UTC instant as the same string with the fraction
replaced by that left-padded form; in particular `"...T20:00:00.5"` parses
to the same instant as `"...T20:00:00.005"` (not `"...500"`). -/
theorem C1_left_pad_amended (base ds : List Char) (hb : '.' ∉ base)
    (hne : ds ≠ []) (hdig : ∀ c ∈ ds, c.isDigit = true) :
    _parse_insight_datetime ⟨base ++ '.' :: ds⟩ =
      _parse_insight_datetime ⟨base ++ '.' :: pad3 (digitsToNat ds)⟩ := by
  unfold _parse_insight_datetime
  rw [zero_pad_on_fraction base ds hb hne hdig,
    zero_pad_on_fraction base (pad3 (digitsToNat ds)) hb (pad3_ne_nil _)
      (pad3_all_digit _),
    pad3_roundtrip]

/-- Witness for C1's amended theorem at the concrete input named by the
claim: the fraction `".5"` of `"2021-05-01T20:00:00.5"` denotes the instant
of the three-digit form `".005"`, namely 2021-05-01 19:00:00.005 UTC. -/
theorem C1_left_pad_amended_witness :
    _parse_insight_datetime ⟨"2021-05-01T20:00:00".data ++ '.' :: ['5']⟩ =
      _parse_insight_datetime
        ⟨"2021-05-01T20:00:00".data ++ '.' :: pad3 (digitsToNat ['5'])⟩ ∧
    _parse_insight_datetime ⟨"2021-05-01T20:00:00".data ++ '.' :: ['5']⟩ =
      .ok 1619895600005000 :=
  ⟨C1_left_pad_amended "2021-05-01T20:00:00".data ['5'] (by decide) (by decide)
    (by decide), by decide⟩

/-- Claim C2, evaluation at the failing input. The claim states that
`_parse_nearby_event` returns a null neighbor whenever `idx + offset` falls
outside the list, including when it is negative. In fact only the upper
bound is guarded: at `idx = 0`, `offset = -1` the Python index `-1` wraps
around and the call returns the last element of the list. -/
theorem C2_negative_offset_wraparound :
    _parse_nearby_event [baseEvent, evOn] 0 (-1) = some evOn ∧
    evOn ≠ baseEvent :=
  ⟨by decide, by decide⟩

/-- Claim C3, counterexample. The claim states that no ordinary event of
period P is emitted before the period-start marker for P has been observed.
But `extract_periods` prefills period start timestamps with nonzero
metadata-derived offsets, and the guard `if not period.start_timestamp`
only discards events while the start timestamp is falsy: with a prefilled
period, the ordinary recovery event at raw index 0 is emitted even though
the only start marker sits at index 1 (the emitted timestamp is even a
`datetime`, since `datetime - timedelta` is a `datetime`). -/
theorem C3_counterexample :
    parse_events cfg0 (teamA, teamB) [evRecovery, evStart] periodsPrefilled =
      .ok [{ kind := .recovery, period_id := 1, timestamp := .dt (-3800000),
             ball_owning_team := some "T1", ball_state := .alive,
             event_id := "E4", team_id := "T1",
             player := some ⟨"P1", "One"⟩, coordinates := ⟨50, 50⟩,
             substitution := none }] ∧
    evRecovery.type_id ≠ EVENT_TYPE_START_PERIOD ∧
    evRecovery.type_id ≠ EVENT_TYPE_END_PERIOD ∧
    evRecovery.type_id ≠ EVENT_TYPE_PLAYER_ON ∧
    evStart.type_id = EVENT_TYPE_START_PERIOD :=
  ⟨by decide, by decide, by decide, by decide, by decide⟩

/-- Claim C3, amended. A period-start marker whose team and period resolve
always sets that period's start timestamp to the marker's absolute
timestamp; and an ordinary (non-marker) event is discarded exactly while
the owning period's current start timestamp is falsy (`None` or a zero
`timedelta`) — so ordinary events can be emitted before the start marker is
observed whenever the metadata prefilled a nonzero start timestamp. -/
theorem C3_amended_period_gate (cfg : ParseConfig) (teams : Team × Team)
    (raw : List OptaEvent) (idx : Int) (e : OptaEvent) (st : PState)
    (team : Team) (p : Period)
    (hteam : _parse_team e teams = .ok team)
    (hper : _parse_period e st.periods = some p) :
    (e.type_id = EVENT_TYPE_START_PERIOD →
      processEvent cfg teams raw idx e st =
        .ok { st with periods := setStart st.periods e.period_id (.dt e.timestamp) }) ∧
    (e.type_id ≠ EVENT_TYPE_START_PERIOD → e.type_id ≠ EVENT_TYPE_END_PERIOD →
      e.type_id ≠ EVENT_TYPE_PLAYER_ON → optTruthy p.start_timestamp = false →
      processEvent cfg teams raw idx e st = .ok st) := by
  constructor
  · intro h1
    rw [processEvent_team_ok cfg teams raw idx e st team hteam,
      processAfterTeam_period_some cfg raw idx e st team p hper]
    unfold processAfterPeriod
    rw [if_pos h1]
  · intro h1 h2 h3 h4
    rw [processEvent_team_ok cfg teams raw idx e st team hteam,
      processAfterTeam_period_some cfg raw idx e st team p hper]
    unfold processAfterPeriod
    rw [if_neg h1, if_neg h2, if_neg h3]
    cases hst : p.start_timestamp with
    | none => exact processStartGate_none cfg raw idx e st team p hst
    | some pt =>
      rw [hst] at h4
      simp only [optTruthy] at h4
      rw [processStartGate_some cfg raw idx e st team p pt hst]
      simp [h4]

/-- Witness for C3's amended theorem: a start marker for a fresh period
records its timestamp, and an ordinary recovery event for a period with no
recorded start is discarded. -/
theorem C3_amended_period_gate_witness :
    processEvent cfg0 (teamA, teamB) [evStart] 0 evStart
        ⟨periodsUnset, none, []⟩ =
      .ok ⟨setStart periodsUnset 1 (.dt 1000000), none, []⟩ ∧
    processEvent cfg0 (teamA, teamB) [evRecovery] 0 evRecovery
        ⟨periodsUnset, none, []⟩ = .ok ⟨periodsUnset, none, []⟩ :=
  ⟨(C3_amended_period_gate cfg0 (teamA, teamB) [evStart] 0 evStart
      ⟨periodsUnset, none, []⟩ teamA ⟨1, none, none⟩ (by decide) (by decide)).1
      (by decide),
   (C3_amended_period_gate cfg0 (teamA, teamB) [evRecovery] 0 evRecovery
      ⟨periodsUnset, none, []⟩ teamA ⟨1, none, none⟩ (by decide) (by decide)).2
      (by decide) (by decide) (by decide) (by decide)⟩

/-- Claim C4, evaluation at the failing input. The claim states that a
player-off event with no matching player-on neighbor always aborts with a
referential-integrity (deserialization) error, including when the
player-off event is the last event of the feed. When it is the last event,
`next_event` is `None` and the scan reads `None.type_id`, so the parse
aborts with an `AttributeError` instead. The second conjunct checks the
positive half of the claim at a well-formed feed: with the matching
player-on marker as the previous neighbor, the emitted substitution event's
replacement player is that marker's player, resolved from the same team's
roster. -/
theorem C4_substitution_eval :
    parse_events cfg0 (teamA, teamB) [evStart, evOff] periodsUnset =
      .error .attrError ∧
    parse_events cfg0 (teamA, teamB) [evStart, evOn, evOff] periodsUnset =
      .ok [{ kind := .substitution, period_id := 1, timestamp := .td 1000000,
             ball_owning_team := none, ball_state := .dead, event_id := "E3",
             team_id := "T1", player := some ⟨"P1", "One"⟩,
             coordinates := ⟨50, 50⟩,
             substitution := some ⟨some ⟨"P2", "Two"⟩, .striker⟩ }] :=
  ⟨by decide, by decide⟩

/-! Composition lemmas for the event loop. -/

theorem runFrom_succ (cfg : ParseConfig) (teams : Team × Team)
    (raw : List OptaEvent) (fuel idx : Nat) (st : PState) :
    runFrom cfg teams raw (fuel + 1) idx st =
      match raw.get? idx with
      | none => .ok st
      | some e =>
        match processEvent cfg teams raw (idx : Int) e st with
        | .error err => .error err
        | .ok st2 => runFrom cfg teams raw fuel (idx + 1) st2 := rfl

theorem runFrom_oob (cfg : ParseConfig) (teams : Team × Team)
    (raw : List OptaEvent) (fuel idx : Nat) (st : PState)
    (h : raw.length ≤ idx) : runFrom cfg teams raw fuel idx st = .ok st := by
  cases fuel with
  | zero => rfl
  | succ fuel => rw [runFrom_succ, List.get?_eq_none.2 h]

theorem runFrom_add (cfg : ParseConfig) (teams : Team × Team)
    (raw : List OptaEvent) :
    ∀ (m n idx : Nat) (st : PState),
    runFrom cfg teams raw (m + n) idx st =
      match runFrom cfg teams raw m idx st with
      | .error err => .error err
      | .ok st2 => runFrom cfg teams raw n (idx + m) st2 := by
  intro m
  induction m with
  | zero =>
    intro n idx st
    have h0 : 0 + n = n := by omega
    rw [h0]
    rfl
  | succ m ih =>
    intro n idx st
    have harith : m + 1 + n = (m + n) + 1 := by omega
    rw [harith]
    cases hg : raw.get? idx with
    | none =>
      have hlen : raw.length ≤ idx := List.get?_eq_none.1 hg
      have hL : runFrom cfg teams raw (m + n + 1) idx st = .ok st := by
        rw [runFrom_succ, hg]
      have hR : runFrom cfg teams raw (m + 1) idx st = .ok st := by
        rw [runFrom_succ, hg]
      rw [hL, hR]
      exact (runFrom_oob cfg teams raw n (idx + (m + 1)) st (by omega)).symm
    | some e =>
      have hL : runFrom cfg teams raw (m + n + 1) idx st =
          match processEvent cfg teams raw (idx : Int) e st with
          | .error err => .error err
          | .ok st2 => runFrom cfg teams raw (m + n) (idx + 1) st2 := by
        rw [runFrom_succ, hg]
      have hR : runFrom cfg teams raw (m + 1) idx st =
          match processEvent cfg teams raw (idx : Int) e st with
          | .error err => .error err
          | .ok st2 => runFrom cfg teams raw m (idx + 1) st2 := by
        rw [runFrom_succ, hg]
      rw [hL, hR]
      cases hp : processEvent cfg teams raw (idx : Int) e st with
      | error err => rfl
      | ok st2 =>
        show runFrom cfg teams raw (m + n) (idx + 1) st2 = _
        rw [ih n (idx + 1) st2]
        have harith2 : idx + 1 + m = idx + (m + 1) := by omega
        rw [harith2]

/-- Claim C5. Team resolution happens before the period check in every loop
iteration, so a raw event whose team reference matches neither of the two
known team identifiers aborts the whole parse with the unknown-team
deserialization error, even when that event would afterwards have been
skipped for an unmatched period: whenever the first `i` iterations complete
without error, an unresolvable team reference at index `i` makes
`parse_events` return the deserialization error. -/
theorem C5_unknown_team_aborts (cfg : ParseConfig) (teams : Team × Team)
    (raw : List OptaEvent) (periods : List Period) (i : Nat) (e : OptaEvent)
    (st : PState)
    (he : raw.get? i = some e)
    (hpre : runFrom cfg teams raw i 0 ⟨periods, none, []⟩ = .ok st)
    (h1 : e.contestant_id ≠ teams.1.team_id)
    (h2 : e.contestant_id ≠ teams.2.team_id) :
    parse_events cfg teams raw periods =
      .error (.deserialization ("Unknown team_id " ++ e.contestant_id)) := by
  have hi : i < raw.length := by
    by_contra hcon
    rw [List.get?_eq_none.2 (by omega)] at he
    exact absurd he (by simp)
  unfold parse_events
  have hsplit : raw.length = i + (raw.length - i) := by omega
  rw [hsplit, runFrom_add, hpre]
  have h0i : 0 + i = i := by omega
  rw [h0i]
  obtain ⟨k, hk⟩ : ∃ k, raw.length - i = k + 1 := ⟨raw.length - i - 1, by omega⟩
  rw [hk]
  have hteam : _parse_team e teams =
      .error (.deserialization ("Unknown team_id " ++ e.contestant_id)) := by
    unfold _parse_team
    rw [if_neg h1, if_neg h2]
  have hproc : processEvent cfg teams raw (i : Int) e st =
      .error (.deserialization ("Unknown team_id " ++ e.contestant_id)) := by
    unfold processEvent
    rw [hteam]
  have hstep : runFrom cfg teams raw (k + 1) i st =
      .error (.deserialization ("Unknown team_id " ++ e.contestant_id)) := by
    rw [runFrom_succ, he]
    show (match processEvent cfg teams raw (i : Int) e st with
          | Except.error err => Except.error err
          | Except.ok st2 => runFrom cfg teams raw k (i + 1) st2) =
        Except.error (.deserialization ("Unknown team_id " ++ e.contestant_id))
    rw [hproc]
  show (match runFrom cfg teams raw (k + 1) i st with
        | Except.error err => Except.error err
        | Except.ok st => Except.ok st.events) =
      Except.error (.deserialization ("Unknown team_id " ++ e.contestant_id))
  rw [hstep]

theorem dispatchOwningFrom_self (cfg : ParseConfig) (teams : Team × Team)
    (raw : List OptaEvent) (idx : Nat) (st : PState) (e : OptaEvent)
    (hg : raw.get? idx = some e) :
    dispatchOwningFrom cfg teams raw idx st idx =
      (stepReachesDispatch teams st e &&
        decide (e.type_id ∈ BALL_OWNING_EVENTS)) := by
  unfold dispatchOwningFrom
  rw [Nat.sub_self]
  show (match raw.get? idx with
        | some e2 =>
          stepReachesDispatch teams st e2 &&
            decide (e2.type_id ∈ BALL_OWNING_EVENTS)
        | none => false) = _
  rw [hg]

theorem dispatchOwningFrom_step (cfg : ParseConfig) (teams : Team × Team)
    (raw : List OptaEvent) (idx : Nat) (st stm : PState) (e : OptaEvent)
    (hg : raw.get? idx = some e)
    (hp : processEvent cfg teams raw (idx : Int) e st = .ok stm) (j : Nat) :
    dispatchOwningFrom cfg teams raw idx st (idx + (j + 1)) =
      dispatchOwningFrom cfg teams raw (idx + 1) stm (idx + (j + 1)) := by
  unfold dispatchOwningFrom
  have h1 : idx + (j + 1) - idx = j + 1 := by omega
  have h2 : idx + (j + 1) - (idx + 1) = j := by omega
  rw [h1, h2]
  have hrun : runFrom cfg teams raw (j + 1) idx st =
      runFrom cfg teams raw j (idx + 1) stm := by
    rw [runFrom_succ, hg]
    show (match processEvent cfg teams raw (idx : Int) e st with
          | Except.error err => Except.error err
          | Except.ok st2 => runFrom cfg teams raw j (idx + 1) st2) =
        runFrom cfg teams raw j (idx + 1) stm
    rw [hp]
  rw [hrun]

/-- The resulting state of the ordinary branch, given the dispatch result:
periods unchanged, possession updated on ball-owning types, and the
appended output events carrying the updated possession team. -/
theorem processOrdinary_state (cfg : ParseConfig) (raw : List OptaEvent)
    (idx : Int) (e : OptaEvent) (st : PState) (team : Team) (p : Period)
    (pt : PyTime) (kind : EventKind) (ts2 : PyTime) (sub : Option SubInfo)
    (st2 : PState)
    (hd : dispatchBranch raw idx e team pt (subDtFrom e.timestamp pt) =
      .ok (kind, ts2, sub))
    (h : processOrdinary cfg raw idx e st team p pt = .ok st2) :
    st2.periods = st.periods ∧
    st2.possession = possessionAfter e team st ∧
    ∃ l, st2.events = st.events ++ l ∧
      ∀ b ∈ l, b.ball_owning_team = st2.possession.map (fun t => t.team_id) := by
  rw [processOrdinary_eq cfg raw idx e st team p pt kind ts2 sub hd] at h
  injection h with hrec
  subst hrec
  refine ⟨rfl, rfl, ?_⟩
  show ∃ l,
    (if cfg.shouldInclude
        (builtOf e team p (possessionAfter e team st) kind ts2 sub)
     then st.events ++
       [applyTransform cfg
         (builtOf e team p (possessionAfter e team st) kind ts2 sub)]
     else st.events) = st.events ++ l ∧
    ∀ b ∈ l, b.ball_owning_team =
      Option.map (fun t => t.team_id) (possessionAfter e team st)
  split
  · refine ⟨_, rfl, ?_⟩
    intro b hb
    rw [List.mem_singleton] at hb
    subst hb
    rfl
  · exact ⟨[], by simp, by simp⟩

/-- Characterization of one loop iteration with respect to the possession
state: a processed ball-owning event makes the possession team the event's
resolved team, every other iteration leaves it unchanged, and the events
appended by the iteration all carry the post-iteration possession team. -/
theorem processEvent_possession (cfg : ParseConfig) (teams : Team × Team)
    (raw : List OptaEvent) (idx : Int) (e : OptaEvent) (st st2 : PState)
    (h : processEvent cfg teams raw idx e st = .ok st2) :
    ((stepReachesDispatch teams st e &&
        decide (e.type_id ∈ BALL_OWNING_EVENTS)) = true →
      ∃ t, _parse_team e teams = .ok t ∧ st2.possession = some t) ∧
    ((stepReachesDispatch teams st e &&
        decide (e.type_id ∈ BALL_OWNING_EVENTS)) = false →
      st2.possession = st.possession) ∧
    ∃ l, st2.events = st.events ++ l ∧
      ∀ b ∈ l, b.ball_owning_team = st2.possession.map (fun t => t.team_id) := by
  cases ht : _parse_team e teams with
  | error err =>
    rw [processEvent_team_error cfg teams raw idx e st err ht] at h
    exact absurd h (by simp)
  | ok team =>
    rw [processEvent_team_ok cfg teams raw idx e st team ht] at h
    cases hp : _parse_period e st.periods with
    | none =>
      rw [processAfterTeam_period_none cfg raw idx e st team hp] at h
      have hst : st = st2 := by injection h
      subst hst
      have hsrd : stepReachesDispatch teams st e = false := by
        simp [stepReachesDispatch, ht, hp]
      refine ⟨fun hc => ?_, fun _ => rfl, [], by simp, by simp⟩
      rw [hsrd] at hc
      simp at hc
    | some p =>
      rw [processAfterTeam_period_some cfg raw idx e st team p hp] at h
      unfold processAfterPeriod at h
      by_cases hS : e.type_id = EVENT_TYPE_START_PERIOD
      · rw [if_pos hS] at h
        have hst : ({ st with
            periods := setStart st.periods e.period_id (.dt e.timestamp) } :
            PState) = st2 := by injection h
        subst hst
        have hsrd : stepReachesDispatch teams st e = false := by
          simp [stepReachesDispatch, ht, hp, hS]
        refine ⟨fun hc => ?_, fun _ => rfl, [], by simp, by simp⟩
        rw [hsrd] at hc
        simp at hc
      · rw [if_neg hS] at h
        by_cases hE : e.type_id = EVENT_TYPE_END_PERIOD
        · rw [if_pos hE] at h
          have hst : ({ st with
              periods := setEnd st.periods e.period_id (.dt e.timestamp) } :
              PState) = st2 := by injection h
          subst hst
          have hsrd : stepReachesDispatch teams st e = false := by
            simp [stepReachesDispatch, ht, hp, hE]
          refine ⟨fun hc => ?_, fun _ => rfl, [], by simp, by simp⟩
          rw [hsrd] at hc
          simp at hc
        · rw [if_neg hE] at h
          by_cases hON : e.type_id = EVENT_TYPE_PLAYER_ON
          · rw [if_pos hON] at h
            have hst : st = st2 := by injection h
            subst hst
            have hsrd : stepReachesDispatch teams st e = false := by
              simp [stepReachesDispatch, ht, hp, hON]
            refine ⟨fun hc => ?_, fun _ => rfl, [], by simp, by simp⟩
            rw [hsrd] at hc
            simp at hc
          · rw [if_neg hON] at h
            cases hstart : p.start_timestamp with
            | none =>
              rw [processStartGate_none cfg raw idx e st team p hstart] at h
              have hst : st = st2 := by injection h
              subst hst
              have hsrd : stepReachesDispatch teams st e = false := by
                simp [stepReachesDispatch, ht, hp, hstart, optTruthy]
              refine ⟨fun hc => ?_, fun _ => rfl, [], by simp, by simp⟩
              rw [hsrd] at hc
              simp at hc
            | some pt =>
              rw [processStartGate_some cfg raw idx e st team p pt hstart] at h
              cases htr : pt.truthy with
              | false =>
                rw [htr] at h
                rw [if_neg (by simp)] at h
                have hst : st = st2 := by injection h
                subst hst
                have hsrd : stepReachesDispatch teams st e = false := by
                  simp [stepReachesDispatch, ht, hp, hstart, optTruthy, htr]
                refine ⟨fun hc => ?_, fun _ => rfl, [], by simp, by simp⟩
                rw [hsrd] at hc
                simp at hc
              | true =>
                rw [htr] at h
                rw [if_pos rfl] at h
                have hsrd : stepReachesDispatch teams st e = true := by
                  simp [stepReachesDispatch, ht, hp, hS, hE, hON, hstart,
                    optTruthy, htr]
                cases hd : dispatchBranch raw idx e team pt
                    (subDtFrom e.timestamp pt) with
                | error err =>
                  rw [processOrdinary_err cfg raw idx e st team p pt err hd]
                    at h
                  exact absurd h (by simp)
                | ok trip =>
                  obtain ⟨kind, ts2, sub⟩ := trip
                  obtain ⟨hper2, hposs, hl⟩ :=
                    processOrdinary_state cfg raw idx e st team p pt kind ts2
                      sub st2 hd h
                  refine ⟨fun hcond => ⟨team, rfl, ?_⟩, fun hcond => ?_, hl⟩
                  · have hmem : e.type_id ∈ BALL_OWNING_EVENTS := by
                      rw [hsrd] at hcond
                      simpa using hcond
                    rw [hposs]
                    unfold possessionAfter
                    rw [if_pos hmem]
                  · have hmem : e.type_id ∉ BALL_OWNING_EVENTS := by
                      rw [hsrd] at hcond
                      simpa using hcond
                    rw [hposs]
                    unfold possessionAfter
                    rw [if_neg hmem]


/-- Claim C6. Possession-team attribution is monotonic between processed
ball-owning events. First conjunct: over any stretch of the loop containing
no processed (dispatch-reaching) ball-owning event, the possession team is
unchanged and every event emitted during the stretch carries the possession
team held at the start of the stretch (`None` before the first ball-owning
event, since the loop starts with no possession team). Second conjunct: a
processed ball-owning event makes the possession team its own resolved
team, and the events it emits carry that team. -/
theorem C6_possession_monotonic (cfg : ParseConfig) (teams : Team × Team)
    (raw : List OptaEvent) :
    (∀ (n idx : Nat) (st st2 : PState),
      runFrom cfg teams raw n idx st = .ok st2 →
      (∀ j, j < n → dispatchOwningFrom cfg teams raw idx st (idx + j) = false) →
      st2.possession = st.possession ∧
      ∃ l, st2.events = st.events ++ l ∧
        ∀ b ∈ l, b.ball_owning_team = st.possession.map (fun t => t.team_id)) ∧
    (∀ (idx : Nat) (st st2 : PState) (e : OptaEvent),
      raw.get? idx = some e →
      processEvent cfg teams raw (idx : Int) e st = .ok st2 →
      (stepReachesDispatch teams st e &&
        decide (e.type_id ∈ BALL_OWNING_EVENTS)) = true →
      ∃ t, _parse_team e teams = .ok t ∧ st2.possession = some t ∧
        ∃ l, st2.events = st.events ++ l ∧
          ∀ b ∈ l, b.ball_owning_team = some t.team_id) := by
  constructor
  · intro n
    induction n with
    | zero =>
      intro idx st st2 h _
      have hst : st = st2 := by injection h
      subst hst
      exact ⟨rfl, [], by simp, by simp⟩
    | succ n ih =>
      intro idx st st2 h hmid
      cases hg : raw.get? idx with
      | none =>
        have heq : runFrom cfg teams raw (n + 1) idx st = .ok st := by
          rw [runFrom_succ, hg]
        rw [heq] at h
        have hst : st = st2 := by injection h
        subst hst
        exact ⟨rfl, [], by simp, by simp⟩
      | some e =>
        cases hp : processEvent cfg teams raw (idx : Int) e st with
        | error err =>
          have heq : runFrom cfg teams raw (n + 1) idx st = .error err := by
            rw [runFrom_succ, hg]
            show (match processEvent cfg teams raw (idx : Int) e st with
                  | Except.error err2 => Except.error err2
                  | Except.ok stx => runFrom cfg teams raw n (idx + 1) stx) =
                Except.error err
            rw [hp]
          rw [heq] at h
          exact absurd h (by simp)
        | ok stm =>
          have heq : runFrom cfg teams raw (n + 1) idx st =
              runFrom cfg teams raw n (idx + 1) stm := by
            rw [runFrom_succ, hg]
            show (match processEvent cfg teams raw (idx : Int) e st with
                  | Except.error err2 => Except.error err2
                  | Except.ok stx => runFrom cfg teams raw n (idx + 1) stx) =
                runFrom cfg teams raw n (idx + 1) stm
            rw [hp]
          rw [heq] at h
          have h0 : dispatchOwningFrom cfg teams raw idx st idx = false := by
            have h00 := hmid 0 (by omega)
            simpa using h00
          rw [dispatchOwningFrom_self cfg teams raw idx st e hg] at h0
          obtain ⟨_, hkeep, l0, hev0, hcar0⟩ :=
            processEvent_possession cfg teams raw (idx : Int) e st stm hp
          have hkeep2 : stm.possession = st.possession := hkeep h0
          have hmid2 : ∀ j, j < n →
              dispatchOwningFrom cfg teams raw (idx + 1) stm ((idx + 1) + j) =
                false := by
            intro j hj
            have harr : (idx + 1) + j = idx + (j + 1) := by omega
            rw [harr,
              ← dispatchOwningFrom_step cfg teams raw idx st stm e hg hp j]
            exact hmid (j + 1) (by omega)
          obtain ⟨hpos2, l1, hev1, hcar1⟩ := ih (idx + 1) stm st2 h hmid2
          refine ⟨by rw [hpos2, hkeep2], l0 ++ l1, ?_, ?_⟩
          · rw [hev1, hev0, List.append_assoc]
          · intro b hb
            rcases List.mem_append.1 hb with hbl | hbl
            · rw [hcar0 b hbl, hkeep2]
            · rw [hcar1 b hbl, hkeep2]
  · intro idx st st2 e hg hp hcond
    obtain ⟨hset, _, l, hev, hcar⟩ :=
      processEvent_possession cfg teams raw (idx : Int) e st st2 hp
    obtain ⟨t, hteq, hposs⟩ := hset hcond
    refine ⟨t, hteq, hposs, l, hev, ?_⟩
    intro b hb
    rw [hcar b hb, hposs]
    rfl

/-- Witness for C6 at concrete inputs: a run over two card events (no
ball-owning event) keeps the possession team at `None` and both emitted
events carry `None`; and a single processed pass event sets the possession
team to its own team and emits an event carrying it. -/
theorem C6_possession_monotonic_witness :
    ((⟨periodsPrefilled, none, [c6Card1, c6Card2]⟩ : PState).possession =
        (⟨periodsPrefilled, none, []⟩ : PState).possession ∧
      ∃ l, (⟨periodsPrefilled, none, [c6Card1, c6Card2]⟩ : PState).events =
          (⟨periodsPrefilled, none, []⟩ : PState).events ++ l ∧
        ∀ b ∈ l, b.ball_owning_team =
          Option.map (fun t => t.team_id)
            (⟨periodsPrefilled, none, []⟩ : PState).possession) ∧
    (∃ t, _parse_team baseEvent (teamA, teamB) = .ok t ∧
      (⟨periodsPrefilled, some teamA, [c6Pass]⟩ : PState).possession = some t ∧
      ∃ l, (⟨periodsPrefilled, some teamA, [c6Pass]⟩ : PState).events =
          (⟨periodsPrefilled, none, []⟩ : PState).events ++ l ∧
        ∀ b ∈ l, b.ball_owning_team = some t.team_id) :=
  ⟨(C6_possession_monotonic cfg0 (teamA, teamB) [evCardA, evCardB]).1 2 0
      ⟨periodsPrefilled, none, []⟩ ⟨periodsPrefilled, none, [c6Card1, c6Card2]⟩
      (by decide) (by decide),
   (C6_possession_monotonic cfg0 (teamA, teamB) [baseEvent]).2 0
      ⟨periodsPrefilled, none, []⟩ ⟨periodsPrefilled, some teamA, [c6Pass]⟩
      baseEvent (by decide) (by decide) (by decide)⟩

/-- Witness for C5 at a concrete input: a one-event feed whose event
references the unknown team `"TX"` and a period id (99) matching no period;
the parse still aborts with the unknown-team deserialization error. -/
theorem C5_unknown_team_aborts_witness :
    ([evUnknownTeam].get? 0 = some evUnknownTeam) ∧
    parse_events cfg0 (teamA, teamB) [evUnknownTeam] periodsUnset =
      .error (.deserialization ("Unknown team_id " ++ evUnknownTeam.contestant_id)) :=
  ⟨by decide,
   C5_unknown_team_aborts cfg0 (teamA, teamB) [evUnknownTeam] periodsUnset 0
     evUnknownTeam ⟨periodsUnset, none, []⟩ (by decide) (by decide) (by decide)
     (by decide)⟩

/-- Claim C7. `extract_periods` excludes exactly the period entries whose
start and end frame indices are both zero, and every other entry yields a
period whose start and end timestamps are the frame indices divided by the
frame rate, expressed as elapsed-time offsets (`timedelta`s), in order.
(The hypothesis rules out a zero frame rate, where the Python code would
raise `ZeroDivisionError` instead.) -/
theorem C7_period_exclusion (entries : List PeriodEntry) (fps : Option ℚ)
    (h : extract_frame_rate fps ≠ 0) :
    extract_periods entries fps =
      .ok (extract_periods_spec entries (extract_frame_rate fps)) := by
  have hq : ((extract_frame_rate fps : Int) : ℚ) ≠ 0 := by
    exact_mod_cast h
  induction entries with
  | nil => rfl
  | cons p ps ih =>
    unfold extract_periods
    by_cases hc : p.startFrameIdx ≠ 0 ∨ p.endFrameIdx ≠ 0
    · rw [if_pos hc]
      unfold pyDiv
      rw [if_neg hq, if_neg hq, ih]
      show Except.ok _ = Except.ok _
      unfold extract_periods_spec
      rw [List.filter_cons]
      have hb : (!(p.startFrameIdx == 0 && p.endFrameIdx == 0)) = true := by
        rcases hc with hc | hc <;> simp [hc]
      rw [if_pos hb, List.map_cons]
    · rw [if_neg hc]
      push_neg at hc
      rw [ih]
      show Except.ok _ = Except.ok _
      unfold extract_periods_spec
      rw [List.filter_cons]
      have hb : (!(p.startFrameIdx == 0 && p.endFrameIdx == 0)) = false := by
        simp [hc.1, hc.2]
      rw [if_neg (by simp [hb])]

/-- Witness for C7 at a concrete input: with no `fps` field the frame rate
defaults to 25; the entry with both frame indices zero is excluded and the
other entry becomes a period with offsets 4s and 8s. -/
theorem C7_period_exclusion_witness :
    extract_frame_rate none ≠ 0 ∧
    extract_periods [⟨1, 100, 200⟩, ⟨2, 0, 0⟩] none =
      .ok (extract_periods_spec [⟨1, 100, 200⟩, ⟨2, 0, 0⟩]
        (extract_frame_rate none)) ∧
    extract_periods_spec [⟨1, 100, 200⟩, ⟨2, 0, 0⟩] (extract_frame_rate none) =
      [⟨1, some (.td 4000000), some (.td 8000000)⟩] := by
  refine ⟨?_, C7_period_exclusion [⟨1, 100, 200⟩, ⟨2, 0, 0⟩] none ?_, ?_⟩
  · norm_num [extract_frame_rate, pyTrunc]
  · norm_num [extract_frame_rate, pyTrunc]
  · norm_num [extract_periods_spec, extract_frame_rate, pyTrunc, tdSeconds,
      roundHalfEven, List.filter, List.map]

theorem isJsonCasing_upper (t : String) (h : isJsonCasing t = true) :
    pyUpperStr t = "JSON" := by
  obtain ⟨ds⟩ := t
  unfold isJsonCasing at h
  match ds, h with
  | [a, b, c, d], h =>
    simp only [Bool.and_eq_true, Bool.or_eq_true, beq_iff_eq] at h
    obtain ⟨⟨⟨ha, hb⟩, hc⟩, hd⟩ := h
    rcases ha with rfl | rfl <;> rcases hb with rfl | rfl <;>
      rcases hc with rfl | rfl <;> rcases hd with rfl | rfl <;> decide

/-- Claim C8. With an explicit format tag, no detection is performed (the
selection does not depend on the stream) and the tag is matched
case-insensitively via upper-casing: exactly the tags upper-casing to
`"JSON"` — in particular every casing of `"json"` — select the JSON
metadata parser, every other tag raises the not-implemented error. With no
tag, a first character `'<'` classifies the stream as `"XML"` markup and
raises the not-implemented error, and any other first character (or an
empty stream) selects the JSON metadata parser. (`str.upper` is modelled
on ASCII strings.) -/
theorem C8_metadata_parser_selection (feed feed2 : String) (t : String) :
    (getMetadataParser feed (some t) = getMetadataParser feed2 (some t)) ∧
    (pyUpperStr t = "JSON" →
      getMetadataParser feed (some t) = .ok .metadataJSON) ∧
    (pyUpperStr t ≠ "JSON" →
      getMetadataParser feed (some t) =
        .error (.notImpl ("A parser for metadata feeds in " ++ pyUpperStr t ++
          " format is not yet implemented."))) ∧
    (isJsonCasing t = true →
      getMetadataParser feed (some t) = .ok .metadataJSON) ∧
    (feed.data.head? = some '<' →
      getMetadataParser feed none =
        .error (.notImpl
          "A parser for metadata feeds in XML format is not yet implemented.")) ∧
    (feed.data.head? ≠ some '<' →
      getMetadataParser feed none = .ok .metadataJSON) := by
  have hmain : ∀ (f : String), pyUpperStr t = "JSON" →
      getMetadataParser f (some t) = .ok .metadataJSON := by
    intro f h
    unfold getMetadataParser
    show (if pyUpperStr t = "JSON" then Except.ok ParserChoice.metadataJSON
          else Except.error (PyError.notImpl ("A parser for metadata feeds in " ++
            pyUpperStr t ++ " format is not yet implemented."))) =
        Except.ok ParserChoice.metadataJSON
    rw [h, if_pos rfl]
  refine ⟨rfl, hmain feed, fun h => ?_,
    fun h => hmain feed (isJsonCasing_upper t h), fun h => ?_, fun h => ?_⟩
  · unfold getMetadataParser
    show (if pyUpperStr t = "JSON" then Except.ok ParserChoice.metadataJSON
          else Except.error (PyError.notImpl ("A parser for metadata feeds in " ++
            pyUpperStr t ++ " format is not yet implemented."))) = _
    rw [if_neg h]
  · unfold getMetadataParser
    rw [if_pos h]
    decide
  · unfold getMetadataParser
    rw [if_neg h]
    decide

/-- Witness for C8 at concrete inputs: the tag `"jSoN"` selects the JSON
parser regardless of the stream, a stream starting with `'<'` raises the
XML not-implemented error, and a stream starting with `'{'` selects the
JSON parser. -/
theorem C8_metadata_parser_selection_witness :
    isJsonCasing "jSoN" = true ∧
    getMetadataParser "\x7b\x7d" (some "jSoN") = .ok .metadataJSON ∧
    getMetadataParser "<meta" none =
      .error (.notImpl
        "A parser for metadata feeds in XML format is not yet implemented.") ∧
    getMetadataParser "\x7b\x7d" none = .ok .metadataJSON :=
  ⟨by decide,
   (C8_metadata_parser_selection "\x7b\x7d" "\x7b\x7d" "jSoN").2.2.2.1 (by decide),
   (C8_metadata_parser_selection "<meta" "<meta" "x").2.2.2.2.1 (by decide),
   (C8_metadata_parser_selection "\x7b\x7d" "\x7b\x7d" "x").2.2.2.2.2 (by decide)⟩

theorem buildOptaEvent_ok_shape (r : InsightRecord) (ev : OptaEvent)
    (h : buildOptaEvent r = .ok ev) :
    ∃ ts lm outc, ev = buildOptaEventCore r ts lm outc := by
  cases h1 : _parse_insight_datetime r.timeStamp with
  | error e =>
    have heq : buildOptaEvent r = .error e := by
      unfold buildOptaEvent
      rw [h1]
    rw [heq] at h
    exact absurd h (by simp)
  | ok ts =>
    cases h2 : _parse_insight_datetime r.lastModified with
    | error e =>
      have heq : buildOptaEvent r = .error e := by
        unfold buildOptaEvent
        rw [h1, h2]
      rw [heq] at h
      exact absurd h (by simp)
    | ok lm =>
      cases h3 : pyIntOfOptInt r.outcome with
      | error e =>
        have heq : buildOptaEvent r = .error e := by
          unfold buildOptaEvent
          rw [h1, h2, h3]
        rw [heq] at h
        exact absurd h (by simp)
      | ok outc =>
        have heq : buildOptaEvent r = .ok (buildOptaEventCore r ts lm outc) := by
          unfold buildOptaEvent
          rw [h1, h2, h3]
        rw [heq] at h
        injection h with h
        exact ⟨ts, lm, outc, h.symm⟩

theorem mapBuild_player_id : ∀ (rs : List InsightRecord)
    (evs : List OptaEvent), mapBuild rs = .ok evs →
    ∀ ev ∈ evs, ev.player_id ≠ none := by
  intro rs
  induction rs with
  | nil =>
    intro evs h ev hev
    have h0 : (Except.ok [] : Except PyError (List OptaEvent)) = .ok evs := h
    injection h0 with h0
    subst h0
    simp at hev
  | cons r rs ih =>
    intro evs h ev hev
    cases hb : buildOptaEvent r with
    | error e =>
      have heq : mapBuild (r :: rs) = .error e := by
        unfold mapBuild
        rw [hb]
      rw [heq] at h
      exact absurd h (by simp)
    | ok ev1 =>
      cases hm : mapBuild rs with
      | error e =>
        have heq : mapBuild (r :: rs) = .error e := by
          unfold mapBuild
          rw [hb, hm]
        rw [heq] at h
        exact absurd h (by simp)
      | ok evs1 =>
        have heq : mapBuild (r :: rs) = .ok (ev1 :: evs1) := by
          unfold mapBuild
          rw [hb, hm]
        rw [heq] at h
        injection h with h
        subst h
        rcases List.mem_cons.1 hev with rfl | hmem
        · obtain ⟨ts, lm, outc, hcore⟩ := buildOptaEvent_ok_shape r ev hb
          rw [hcore]
          simp [buildOptaEventCore]
        · exact ih evs1 hm ev hmem

/-- Claim C9. When the `opContestantId` or `opPlayerId` key is absent from
an accepted feed record, `str(None)` makes the corresponding `OptaEvent`
field the literal string `"None"`; consequently the `player_id` of every
extracted raw event is non-null, and the player-resolution step of
`parse_events` always takes the roster-lookup path (never the
missing-player `player = None` path that an absent key would suggest). -/
theorem C9_absent_keys_stringified (team : Team) :
    (∀ (r : InsightRecord) (ev : OptaEvent), buildOptaEvent r = .ok ev →
      (r.opPlayerId = none → ev.player_id = some "None") ∧
      (r.opContestantId = none → ev.contestant_id = "None") ∧
      ∃ pid, ev.player_id = some pid ∧
        playerResolve team ev = get_player_by_id team pid) ∧
    (∀ (feed : List (Option InsightRecord)) (evs : List OptaEvent),
      extract_events feed = .ok evs → ∀ ev ∈ evs, ev.player_id ≠ none) := by
  constructor
  · intro r ev h
    obtain ⟨ts, lm, outc, hcore⟩ := buildOptaEvent_ok_shape r ev h
    subst hcore
    refine ⟨fun hp => ?_, fun hc => ?_,
      pyStrOfOpt r.opPlayerId, rfl, rfl⟩
    · show some (pyStrOfOpt r.opPlayerId) = some "None"
      rw [hp]
      rfl
    · show pyStrOfOpt r.opContestantId = "None"
      rw [hc]
      rfl
  · intro feed evs h ev hev
    exact mapBuild_player_id (feed.filterMap id) evs h ev hev

/-- Witness for C9 at a concrete record with both identifier keys absent:
the extracted event carries the literal string `"None"` in both fields and
resolves its player against the roster. -/
theorem C9_absent_keys_stringified_witness :
    ((rec9.opPlayerId = none →
        (buildOptaEventCore rec9 1619895600500000 1619895600500000
          1).player_id = some "None") ∧
      (rec9.opContestantId = none →
        (buildOptaEventCore rec9 1619895600500000 1619895600500000
          1).contestant_id = "None") ∧
      ∃ pid, (buildOptaEventCore rec9 1619895600500000 1619895600500000
          1).player_id = some pid ∧
        playerResolve teamA
            (buildOptaEventCore rec9 1619895600500000 1619895600500000 1) =
          get_player_by_id teamA pid) ∧
    (∀ ev ∈ [buildOptaEventCore rec9 1619895600500000 1619895600500000 1],
      ev.player_id ≠ none) :=
  ⟨(C9_absent_keys_stringified teamA).1 rec9
     (buildOptaEventCore rec9 1619895600500000 1619895600500000 1)
     (by decide),
   (C9_absent_keys_stringified teamA).2 [some rec9]
     [buildOptaEventCore rec9 1619895600500000 1619895600500000 1]
     (by decide)⟩

/-- Claim C10. `_parse_substitution` requires the matched player-on event
to carry position qualifier 44: with a truthy qualifier-44 value found in
the fixed position-line table, the value is mapped through the table into
the returned position (alongside the roster-resolved replacement player);
with the qualifier absent, the local variable `position` is never bound and
the function fails with the unhandled unbound-variable error
(`UnboundLocalError`, a `NameError`) — not a deserialization error — rather
than returning a result with an omitted or null position. -/
theorem C10_position_qualifier (cur rel : OptaEvent)
    (next : Option OptaEvent) (team : Team) (relId : Int)
    (h55 : pyIntOfOptStr (qGet cur.qualifiers 55) = .ok relId)
    (hty : rel.type_id = EVENT_TYPE_PLAYER_ON)
    (hid : rel.event_id = relId) :
    (∀ v pos, qGet rel.qualifiers 44 = some v → v ≠ "" →
      plLookup v = some pos →
      _parse_substitution cur (some rel) next team =
        .ok ⟨getPlayerByOptId team rel.player_id, pos⟩) ∧
    (qGet rel.qualifiers 44 = none →
      _parse_substitution cur (some rel) next team = .error .nameError) := by
  constructor
  · intro v pos h44 hv hlook
    unfold _parse_substitution
    rw [h55]
    show (if rel.type_id = EVENT_TYPE_PLAYER_ON ∧ rel.event_id = relId then _
          else _) = _
    rw [if_pos ⟨hty, hid⟩]
    show (match qGet rel.qualifiers 44 with
          | some v2 =>
            if v2 ≠ "" then
              match plLookup v2 with
              | some position =>
                Except.ok (⟨getPlayerByOptId team rel.player_id, position⟩ :
                  SubInfo)
              | none => Except.error PyError.keyError
            else Except.error PyError.nameError
          | none => Except.error PyError.nameError) = _
    rw [h44]
    show (if v ≠ "" then _ else _) = _
    rw [if_pos hv]
    show (match plLookup v with
          | some position =>
            Except.ok (⟨getPlayerByOptId team rel.player_id, position⟩ :
              SubInfo)
          | none => Except.error PyError.keyError) = _
    rw [hlook]
  · intro h44
    unfold _parse_substitution
    rw [h55]
    show (if rel.type_id = EVENT_TYPE_PLAYER_ON ∧ rel.event_id = relId then _
          else _) = _
    rw [if_pos ⟨hty, hid⟩]
    show (match qGet rel.qualifiers 44 with
          | some v2 =>
            if v2 ≠ "" then
              match plLookup v2 with
              | some position =>
                Except.ok (⟨getPlayerByOptId team rel.player_id, position⟩ :
                  SubInfo)
              | none => Except.error PyError.keyError
            else Except.error PyError.nameError
          | none => Except.error PyError.nameError) = _
    rw [h44]

/-- Witness for C10 at concrete inputs: the player-on neighbor with
qualifier 44 = `"Striker"` yields the striker position line, and the same
neighbor with qualifier 44 absent makes `_parse_substitution` fail with the
unbound-variable error. -/
theorem C10_position_qualifier_witness :
    _parse_substitution evOff (some evOn) none teamA =
      .ok ⟨getPlayerByOptId teamA evOn.player_id, .striker⟩ ∧
    _parse_substitution evOff
        (some { evOn with qualifiers := [] }) none teamA =
      .error .nameError :=
  ⟨(C10_position_qualifier evOff evOn none teamA 7 (by decide) (by decide)
      (by decide)).1 "Striker" .striker (by decide) (by decide) (by decide),
   (C10_position_qualifier evOff { evOn with qualifiers := [] } none teamA 7
      (by decide) (by decide) (by decide)).2 (by decide)⟩

end Kloppy
